import Mathlib

/-!
Shallow embedding of the algorithmic core of `core-scheduler-sim`:
the demand/supply-bound kernel (three variants of `schedulingFunctions`,
src/unnamed/part_004, part_005, part_006), the analyzer
(src/unnamed/part_007, first half) and the event-driven simulator
(src/unnamed/part_007, second half).

Conventions of the embedding:
* JavaScript numbers are modelled as exact rationals (`ℚ`); `Math.floor`
  is `Int.floor`, `Math.ceil` is `Int.ceil`, `Math.max` is `max`.
* JS `Map` objects are association lists preserving insertion order
  (`Map.set` updates in place, `Map.get` looks up, iteration follows
  insertion order), which is exactly the ES2015 `Map` contract.
* `Array.prototype.sort` with a numeric comparator is a stable sort
  (ES2019); it is modelled by the stable insertion sort `stableSortBy`.
* JS truthiness on numbers (`x || d` yields `d` when `x` is `0` or
  `undefined`) is modelled by `jsNumOr`; for defaults of `0` this
  coincides with `Option.getD 0`.
* `Math.random()`-generated instance ids are modelled by an explicit
  supply of naturals (`rands`) consumed by the simulation: the simulator
  is a pure function of the model, the horizon and that supply.
* `while` loops whose progress depends on rational arithmetic are
  modelled with an explicit fuel parameter; the fuel constants used by
  the top-level entry points are far larger than any value reached on
  the concrete models analysed here, and all general theorems below
  quantify over the fuel.
-/

set_option allowUnsafeReducibility true
attribute [local semireducible] Rat.add Rat.sub Rat.mul Rat.inv

namespace CoreSched

/-- Character-list version of the prefix test. -/
def charListStartsWith : List Char → List Char → Bool
  | _, [] => true
  | [], _ :: _ => false
  | c :: cs, p :: ps => c == p && charListStartsWith cs ps

/-- JS `String.prototype.startsWith`, computed on the character lists. -/
def strStartsWith (s pre : String) : Bool := charListStartsWith s.data pre.data

/-- JS `x || d` for an optional number: `undefined` and `0` are falsy. -/
def jsNumOr (v : Option ℚ) (d : ℚ) : ℚ :=
  match v with
  | some x => if x = 0 then d else x
  | none => d

/-- JS truthiness of an optional number: `undefined` and `0` are falsy. -/
def jsTruthyNum (v : Option ℚ) : Bool :=
  match v with
  | some x => decide (x ≠ 0)
  | none => false

/-- Lookup in an insertion-ordered association list (JS `Map.get`). -/
def mapGet {α : Type} (k : String) : List (String × α) → Option α
  | [] => none
  | (k', v) :: rest => if k' = k then some v else mapGet k rest

/-- Update/insert in an insertion-ordered association list (JS `Map.set`):
an existing key keeps its position, a new key is appended. -/
def mapSet {α : Type} (k : String) (v : α) : List (String × α) → List (String × α)
  | [] => [(k, v)]
  | (k', v') :: rest => if k' = k then (k, v) :: rest else (k', v') :: mapSet k v rest

/-- Insert an element into a list sorted by `key`, before the first
element with a key `≥` its own (the stable position). -/
def insertSorted {α : Type} (key : α → ℚ) (x : α) : List α → List α
  | [] => [x]
  | y :: ys => if key x ≤ key y then x :: y :: ys else y :: insertSorted key x ys

/-- Stable sort by a rational key; models `Array.prototype.sort` with the
numeric comparator `(a, b) => key(a) - key(b)` (stable per ES2019). -/
def stableSortBy {α : Type} (key : α → ℚ) : List α → List α
  | [] => []
  | x :: xs => insertSorted key x (stableSortBy key xs)

/-- JS `Math.max(x, ...l)` over a nonempty spread. -/
def maxOfList (x : ℚ) (l : List ℚ) : ℚ := l.foldl max x

/-- Scheduling discipline of a component. -/
inductive SchedulingAlgorithm where
  | EDF
  | FPS
deriving DecidableEq, Repr

/-- Task record (src/types/system): display-only fields (`type`, `bcet`)
are omitted, the core functions never read them.  A periodic task has
`period = some T`, a sporadic one `minimumInterArrivalTime = some M`;
the code distinguishes them by field presence, checking `period` first. -/
structure Task where
  id : String
  name : String
  wcet : ℚ
  deadline : ℚ
  priority : Option ℚ := none
  period : Option ℚ := none
  minimumInterArrivalTime : Option ℚ := none
deriving DecidableEq, Repr

instance : Inhabited Task := ⟨⟨"", "", 0, 0, none, none, none⟩⟩

/-- Component tree node (src/types/system).  `childComponents` is
optional exactly as in the source (an absent field and an empty list
behave identically in the code paths modelled here, but both are kept). -/
inductive Component where
  | mk
    (id : String)
    (name : String)
    (schedulingAlgorithm : SchedulingAlgorithm)
    (alpha : Option ℚ)
    (delta : Option ℚ)
    (tasks : List Task)
    (childComponents : Option (List Component))

/-- Identifier of a component. -/
def Component.id : Component → String
  | .mk i _ _ _ _ _ _ => i

/-- Display name of a component. -/
def Component.name : Component → String
  | .mk _ n _ _ _ _ _ => n

/-- Scheduling discipline of a component. -/
def Component.schedulingAlgorithm : Component → SchedulingAlgorithm
  | .mk _ _ alg _ _ _ _ => alg

/-- BDR availability factor of a component, when assigned. -/
def Component.alpha : Component → Option ℚ
  | .mk _ _ _ a _ _ _ => a

/-- BDR delay of a component, when assigned. -/
def Component.delta : Component → Option ℚ
  | .mk _ _ _ _ d _ _ => d

/-- Tasks owned by a component. -/
def Component.tasks : Component → List Task
  | .mk _ _ _ _ _ ts _ => ts

/-- Child components, when the field is present. -/
def Component.childComponents : Component → Option (List Component)
  | .mk _ _ _ _ _ _ cs => cs

/-- JS object spread `{ ...component, alpha, delta }`. -/
def Component.withInterface : Component → Option ℚ → Option ℚ → Component
  | .mk i n alg _ _ ts cs, a, d => .mk i n alg a d ts cs

/-- JS object spread `{ ...component, alpha }`. -/
def Component.withAlpha : Component → Option ℚ → Component
  | .mk i n alg _ d ts cs, a => .mk i n alg a d ts cs

/-- Execution core (src/types/system). -/
structure Core where
  id : String
  name : String
  performanceFactor : ℚ
deriving DecidableEq, Repr

/-- Validated system model handed to the analyzer and the simulator. -/
structure SystemModel where
  cores : List Core
  rootComponents : List Component

/-- Depth fuel of the component-tree recursions at every entry point
below.  The tree walks recurse with one unit of fuel per tree level, so
any model whose component tree is less than `treeFuel` levels deep is
processed exactly as by the source; theorems about the walks hold for
every fuel. -/
def treeFuel : Nat := 1000

namespace Part004

/-- src/unnamed/part_004 `calculateDBFforEDF` (also, verbatim, part_005
lines 19-32): per task `max(0, ⌊(t - D)/T⌋ + 1) · wcet`, tried on the
`period` field first and on `minimumInterArrivalTime` otherwise. -/
def calculateDBFforEDF (tasks : List Task) (t : ℚ) : ℚ :=
  tasks.foldl (fun totalDemand task =>
    match task.period with
    | some T => totalDemand + ((max 0 (⌊(t - task.deadline) / T⌋ + 1) : ℤ) : ℚ) * task.wcet
    | none =>
      match task.minimumInterArrivalTime with
      | some M => totalDemand + ((max 0 (⌊(t - task.deadline) / M⌋ + 1) : ℤ) : ℚ) * task.wcet
      | none => totalDemand) 0

/-- src/unnamed/part_004 `calculateDBFforFPS`: own demand
`⌈t/Tᵢ⌉ · wcetᵢ` plus the same for every earlier (higher-priority) task. -/
def calculateDBFforFPS (tasks : List Task) (t : ℚ) (taskIndex : Nat) : ℚ :=
  let task := tasks.getD taskIndex default
  let demand : ℚ :=
    match task.period with
    | some T => ((⌈t / T⌉ : ℤ) : ℚ) * task.wcet
    | none =>
      match task.minimumInterArrivalTime with
      | some M => ((⌈t / M⌉ : ℤ) : ℚ) * task.wcet
      | none => 0
  (tasks.take taskIndex).foldl (fun d hp =>
    match hp.period with
    | some T => d + ((⌈t / T⌉ : ℤ) : ℚ) * hp.wcet
    | none =>
      match hp.minimumInterArrivalTime with
      | some M => d + ((⌈t / M⌉ : ℤ) : ℚ) * hp.wcet
      | none => d) demand

/-- src/unnamed/part_004 `calculateSBFforBDR` (identical in part_005 and
part_006): `0` when `t ≤ Δ`, else `α · (t - Δ)`. -/
def calculateSBFforBDR (alpha delta t : ℚ) : ℚ :=
  if t ≤ delta then 0 else alpha * (t - delta)

/-- Result record of the Half-Half transformation. -/
structure SupplyParams where
  supplyBudget : ℚ
  supplyPeriod : ℚ
deriving DecidableEq, Repr

/-- src/unnamed/part_004 `applyHalfHalfAlgorithm` (identical in part_005
and part_006): `P = 2Δ`, `Q = α·P`. -/
def applyHalfHalfAlgorithm (alpha delta : ℚ) : SupplyParams :=
  let supplyPeriod := 2 * delta
  let supplyBudget := alpha * supplyPeriod
  { supplyBudget := supplyBudget, supplyPeriod := supplyPeriod }

end Part004

namespace Part005

/-- src/unnamed/part_005 `calculateDBFforFPS`: interference
`⌈t/Tⱼ⌉ · wcetⱼ` from each earlier task, plus the task's own `wcet`
(added only when the task is periodic or sporadic). -/
def calculateDBFforFPS (tasks : List Task) (t : ℚ) (taskIndex : Nat) : ℚ :=
  let task := tasks.getD taskIndex default
  let demand : ℚ :=
    (tasks.take taskIndex).foldl (fun d hp =>
      match hp.period with
      | some T => d + ((⌈t / T⌉ : ℤ) : ℚ) * hp.wcet
      | none =>
        match hp.minimumInterArrivalTime with
        | some M => d + ((⌈t / M⌉ : ℤ) : ℚ) * hp.wcet
        | none => d) 0
  if task.period.isSome then demand + task.wcet
  else if task.minimumInterArrivalTime.isSome then demand + task.wcet
  else demand

/-- src/unnamed/part_005 `gcd` helper: Euclid's loop `while (b > 0)
{ [a, b] = [b, a % b] }` on rationals; the loop is given explicit fuel
(`a % b` is `a - b·⌊a/b⌋` for JS numbers with `b > 0`). -/
def gcdAux : Nat → ℚ → ℚ → ℚ
  | 0, a, _ => a
  | fuel + 1, a, b => if 0 < b then gcdAux fuel b (a - b * ⌊a / b⌋) else a

/-- Fuel given to the Euclidean loops; never exhausted on the concrete
models analysed in this file. -/
def gcdFuel : Nat := 1000

/-- src/unnamed/part_005 `gcd` at the default fuel. -/
def gcd (a b : ℚ) : ℚ := gcdAux gcdFuel a b

/-- src/unnamed/part_005 `lcm`: `a * b / gcd a b`. -/
def lcm (a b : ℚ) : ℚ := a * b / gcd a b

/-- Period used for the hyperperiod: `period`, else the minimum
inter-arrival time, else `1` (part_005 line 103). -/
def taskPeriodOr1 (task : Task) : ℚ :=
  match task.period with
  | some T => T
  | none =>
    match task.minimumInterArrivalTime with
    | some M => M
    | none => 1

/-- src/unnamed/part_005 lines 86-93: the utilization sum
`Σ wcet/period` (or `wcet/MIT`), with no performance scaling. -/
def utilization (tasks : List Task) : ℚ :=
  tasks.foldl (fun sum task =>
    match task.period with
    | some T => sum + task.wcet / T
    | none =>
      match task.minimumInterArrivalTime with
      | some M => sum + task.wcet / M
      | none => sum) 0

/-- Deadline sequence `D, D+T, D+2T, …` of one task truncated at
`maxCheckTime` (part_005 lines 112-124).  For a periodic/sporadic task
with step `T > 0` the while loop emits `⌊(maxCheckTime - D)/T⌋ + 1`
points; a task with neither field contributes its deadline once.  With
a step `T ≤ 0` the source's loop never terminates (the model contract
requires positive periods); the embedding truncates that unreachable
branch to the single first point. -/
def checkPointsFor (task : Task) (maxCheckTime : ℚ) : List ℚ :=
  let step : Option ℚ :=
    match task.period with
    | some T => some T
    | none => task.minimumInterArrivalTime
  if task.deadline ≤ maxCheckTime then
    match step with
    | some T =>
      if 0 < T then
        (List.range ((⌊(maxCheckTime - task.deadline) / T⌋).toNat + 1)).map
          (fun k => task.deadline + k * T)
      else [task.deadline]
    | none => [task.deadline]
  else []

/-- JS `Set` insertion: keep the first occurrence of each value. -/
def eraseDupsKeepFirstAux : List ℚ → List ℚ → List ℚ
  | _, [] => []
  | seen, x :: xs =>
    if x ∈ seen then eraseDupsKeepFirstAux seen xs
    else x :: eraseDupsKeepFirstAux (x :: seen) xs

/-- Collect a list into a JS `Set` and back (order of first insertion). -/
def eraseDupsKeepFirst (l : List ℚ) : List ℚ := eraseDupsKeepFirstAux [] l

/-- Tasks in scheduling order: sorted by `priority || 0` for FPS
components, in model order otherwise (part_005 lines 78-83). -/
def fpsSortedTasks (c : Component) : List Task :=
  if c.schedulingAlgorithm = .FPS then
    stableSortBy (fun t => (t.priority).getD 0) c.tasks
  else c.tasks

/-- One DBF ≤ SBF check at a single time point (part_005 lines 127-145). -/
def checkAtPoint (c : Component) (tasks : List Task) (t : ℚ) : Bool :=
  match c.schedulingAlgorithm with
  | .EDF =>
    decide (Part004.calculateDBFforEDF tasks t ≤
      Part004.calculateSBFforBDR (jsNumOr c.alpha 1) (jsNumOr c.delta 0) t)
  | .FPS =>
    (List.range tasks.length).all (fun i =>
      decide (calculateDBFforFPS tasks t i ≤
        Part004.calculateSBFforBDR (jsNumOr c.alpha 1) (jsNumOr c.delta 0) t))

/-- src/unnamed/part_005 `isComponentSchedulable`: sort for FPS, return
`false` immediately when the (unscaled) utilization exceeds `1`, then
check DBF ≤ SBF at every absolute deadline up to
`min(hyperperiod, 1000)`. -/
def isComponentSchedulable (c : Component) : Bool :=
  let tasks := fpsSortedTasks c
  let util := utilization tasks
  if 1 < util then false
  else
    let hyperperiod := tasks.foldl (fun h task => lcm h (taskPeriodOr1 task)) 1
    let maxCheckTime := min hyperperiod 1000
    let checkPoints := eraseDupsKeepFirst (tasks.flatMap (fun task => checkPointsFor task maxCheckTime))
    (stableSortBy (fun x => x) checkPoints).all (fun t => checkAtPoint c tasks t)

end Part005

namespace Part006

/-- src/unnamed/part_006 `calculateDBFforEDF`: per task
`max(0, ⌊(t + T - D)/T⌋ · wcet)` — the `max` is applied to the whole
product, unlike part_004 where it is applied to the job count. -/
def calculateDBFforEDF (tasks : List Task) (t : ℚ) : ℚ :=
  tasks.foldl (fun totalDemand task =>
    match task.period with
    | some T => totalDemand + max 0 (((⌊(t + T - task.deadline) / T⌋ : ℤ) : ℚ) * task.wcet)
    | none =>
      match task.minimumInterArrivalTime with
      | some M => totalDemand + max 0 (((⌊(t + M - task.deadline) / M⌋ : ℤ) : ℚ) * task.wcet)
      | none => totalDemand) 0

end Part006

namespace Part007

/-- Entry of `AnalysisResults.componentInterfaces`: the supply fields are
present only for records produced by the Half-Half transformation. -/
structure InterfaceRecord where
  componentId : String
  alpha : ℚ
  delta : ℚ
  supplyBudget : Option ℚ := none
  supplyPeriod : Option ℚ := none
deriving DecidableEq, Repr

/-- Scaled task set `{ ...task, wcet: task.wcet / p }` (part_007
lines 205-208). -/
def adjustTasks (tasks : List Task) (p : ℚ) : List Task :=
  tasks.map (fun task => { task with wcet := task.wcet / p })

/-- Largest deadline / largest period of a task list, as computed by the
spreads `Math.max(...)` on a nonempty list (part_007 lines 194-199). -/
def maxDeadlineOf (t0 : Task) (rest : List Task) : ℚ :=
  maxOfList t0.deadline (rest.map (fun t => t.deadline))

/-- Period (or MIT, or 0) of a task for the time-bound computation. -/
def periodOr0 (t : Task) : ℚ :=
  match t.period with
  | some T => T
  | none =>
    match t.minimumInterArrivalTime with
    | some M => M
    | none => 0

/-- Largest period of a nonempty task list. -/
def maxPeriodOf (t0 : Task) (rest : List Task) : ℚ :=
  maxOfList (periodOr0 t0) (rest.map periodOr0)

/-- Sampled time points `0, step, 2·step, … ≤ bound` of the check loop
`for (let t = 0; t <= bound; t += step)` with `step ≥ 1`. -/
def samplePoints (bound step : ℚ) : List ℚ :=
  if bound < 0 then []
  else (List.range ((⌊bound / step⌋).toNat + 1)).map (fun k => (k : ℚ) * step)

/-- EDF check of part_007 lines 210-219: DBF ≤ SBF at every sample. -/
def checkEDF (tasks : List Task) (alpha delta : ℚ) (points : List ℚ) : Bool :=
  points.all (fun t =>
    decide (Part004.calculateDBFforEDF tasks t ≤
      Part004.calculateSBFforBDR alpha delta t))

/-- FPS check of part_007 lines 220-236: per task index, DBF ≤ SBF at
every sample (tasks already sorted by priority). -/
def checkFPS (tasks : List Task) (alpha delta : ℚ) (points : List ℚ) : Bool :=
  (List.range tasks.length).all (fun i =>
    points.all (fun t =>
      decide (Part004.calculateDBFforFPS tasks t i ≤
        Part004.calculateSBFforBDR alpha delta t)))

/-- src/unnamed/part_007 `isSchedulableWithInterface`: `false` when the
component has no interface; otherwise sample `DBF ≤ SBF` at 100 stepped
points up to `2·(maxDeadline + maxPeriod)` on the performance-scaled
task set.  For an empty task list the source's `Math.max(...)` spreads
yield `-Infinity`, the loop body never runs and the check succeeds; the
embedding returns `true` in that case. -/
def isSchedulableWithInterface (c : Component) (corePerformanceFactor : ℚ) : Bool :=
  match c.alpha, c.delta with
  | some alpha, some delta =>
    match c.tasks with
    | [] => true
    | t0 :: rest =>
      let bound := 2 * (maxDeadlineOf t0 rest + maxPeriodOf t0 rest)
      let step : ℚ := ((max 1 ⌊bound / 100⌋ : ℤ) : ℚ)
      let points := samplePoints bound step
      let adjustedTasks := adjustTasks c.tasks corePerformanceFactor
      match c.schedulingAlgorithm with
      | .EDF => checkEDF adjustedTasks alpha delta points
      | .FPS =>
        checkFPS (stableSortBy (fun t => (t.priority).getD 0) adjustedTasks)
          alpha delta points
  | _, _ => false

/-- Performance-scaled utilization `Σ (wcet/p)/T` of part_007
lines 130-139 (`'period' in task` is tried first). -/
def scaledUtilization (tasks : List Task) (p : ℚ) : ℚ :=
  tasks.foldl (fun sum task =>
    match task.period with
    | some T => sum + task.wcet / p / T
    | none =>
      match task.minimumInterArrivalTime with
      | some M => sum + task.wcet / p / M
      | none => sum) 0

/-- Binary search of part_007 lines 149-162:
`while (maxDelta - minDelta > 0.1)` halving the interval, testing the
component at the midpoint; returns the final `(minDelta, maxDelta)`.
The loop is given explicit fuel. -/
def binarySearchDelta (c : Component) (p alpha : ℚ) : Nat → ℚ → ℚ → ℚ × ℚ
  | 0, lo, hi => (lo, hi)
  | fuel + 1, lo, hi =>
    if (1 : ℚ) / 10 < hi - lo then
      let mid := (lo + hi) / 2
      if isSchedulableWithInterface (c.withInterface (some alpha) (some mid)) p then
        binarySearchDelta c p alpha fuel lo mid
      else
        binarySearchDelta c p alpha fuel mid hi
    else (lo, hi)

/-- Fuel of the Δ binary search: the gap halves each iteration, so 200
iterations cover any initial gap below `0.1 · 2^200`. -/
def searchFuel : Nat := 200

/-- Initial upper bound of the Δ search: `2 · max deadline`, computed by
a `reduce` with initial value `0` (part_007 lines 146-147). -/
def maxDeadlineZ (tasks : List Task) : ℚ :=
  tasks.foldl (fun m task => max m task.deadline) 0

/-- src/unnamed/part_007 `calculateMinimumInterface`: initial
`α = min(1.1·U, 1)`, binary search on Δ, and — when the search interval
is degenerate and the result still fails — retry with `α` raised by 20 %
(capped at 1).  The retry recursion carries explicit fuel; the source
would recurse (and, the interval being unchanged, diverge) in that case. -/
def calculateMinimumInterface : Nat → Component → ℚ → ℚ × ℚ
  | fuel, c, p =>
    let u := scaledUtilization c.tasks p
    let alpha := min (u * (11 / 10)) 1
    let maxDelta0 := 2 * maxDeadlineZ c.tasks
    let lohi := binarySearchDelta c p alpha searchFuel 0 maxDelta0
    if lohi.1 = lohi.2 &&
        !(isSchedulableWithInterface (c.withInterface (some alpha) (some lohi.2)) p) then
      match fuel with
      | 0 => (alpha, lohi.2)
      | f + 1 =>
        calculateMinimumInterface f (c.withAlpha (some (min (alpha * (12 / 10)) 1))) p
    else (alpha, lohi.2)

/-- Fuel of the α-retry recursion of `calculateMinimumInterface`. -/
def retryFuel : Nat := 100

/-- The child with its computed minimum interface written back
(`childComponent.alpha = alpha; childComponent.delta = delta`,
part_007 lines 73-74). -/
def childAssigned (child : Component) (p : ℚ) : Component :=
  child.withInterface (some (calculateMinimumInterface retryFuel child p).1)
    (some (calculateMinimumInterface retryFuel child p).2)

/-- One iteration of the child loop of `analyzeComponent` (part_007
lines 64-99), abstracted over the recursive analysis `g` of child
subtrees: compute the child's minimum interface, write it onto the
child, emit its record with the Half-Half supply parameters, flag
`α > 1` as unschedulable, and recurse into the child. -/
def analyzeChildStep (g : Component → ℚ → Bool × List InterfaceRecord × Component)
    (p : ℚ) (acc : Bool × List InterfaceRecord × List Component)
    (child : Component) : Bool × List InterfaceRecord × List Component :=
  let ad := calculateMinimumInterface retryFuel child p
  let st := Part004.applyHalfHalfAlgorithm ad.1 ad.2
  let rec0 : InterfaceRecord :=
    ⟨child.id, ad.1, ad.2, some st.supplyBudget, some st.supplyPeriod⟩
  let okAlpha := decide (ad.1 ≤ 1)
  let this := g (childAssigned child p) p
  (acc.1 && (okAlpha && this.1), acc.2.1 ++ (rec0 :: this.2.1),
    acc.2.2 ++ [this.2.2])

/-- src/unnamed/part_007 `analyzeComponent`: recursively assign each
child its minimum interface, emit its Half-Half record, recurse, check
the component itself, and append the component's own record (without
supply parameters) when its interface is assigned.  Returns the
schedulability verdict, the emitted records in source order, and the
component with the children's interfaces written back (the source
mutates the model in place).  One unit of fuel is consumed per tree
level; with exhausted fuel children are left unvisited (never reached
from `analyzeSystem`, whose fuel exceeds any model's depth). -/
def analyzeComponent : Nat → Component → ℚ →
    Bool × List InterfaceRecord × Component
  | 0, c, _ => (true, [], c)
  | fuel + 1, c, p =>
    match c with
    | .mk i n alg a d ts none =>
      let ok := isSchedulableWithInterface (.mk i n alg a d ts none) p
      let recs : List InterfaceRecord :=
        match a, d with
        | some av, some dv => [⟨i, av, dv, none, none⟩]
        | _, _ => []
      (ok, recs, .mk i n alg a d ts none)
    | .mk i n alg a d ts (some cs) =>
      let kids := cs.foldl (analyzeChildStep (analyzeComponent fuel) p) (true, [], [])
      let c' : Component := .mk i n alg a d ts (some kids.2.2)
      let okSelf := isSchedulableWithInterface c' p
      let recs : List InterfaceRecord :=
        match a, d with
        | some av, some dv => kids.2.1 ++ [⟨i, av, dv, none, none⟩]
        | _, _ => kids.2.1
      (kids.1 && okSelf, recs, c')

/-- Root loop body of `analyzeSystem` for one core (part_007
lines 26-43): every root component whose id starts with
`core-<coreId>` gets `α = 1`, `Δ = 0` and is analyzed; the others are
left untouched.  The source mutates the filtered references in place;
the embedding rebuilds the root list with the processed roots
substituted positionally. -/
def processRoots (fuel : Nat) (pf : ℚ) (pre : String) :
    List Component → Bool × List InterfaceRecord × List Component
  | [] => (true, [], [])
  | r :: rs =>
    if strStartsWith r.id pre then
      let r1 := r.withInterface (some 1) (some 0)
      let this := analyzeComponent fuel r1 pf
      let others := processRoots fuel pf pre rs
      (this.1 && others.1, this.2.1 ++ others.2.1, this.2.2 :: others.2.2)
    else
      let others := processRoots fuel pf pre rs
      (others.1, others.2.1, r :: others.2.2)

/-- Core loop of `analyzeSystem` (part_007 lines 24-44). -/
def analyzeCores (fuel : Nat) (roots : List Component) :
    List Core → Bool × List InterfaceRecord × List Component
  | [] => (true, [], roots)
  | core :: rest =>
    let this := processRoots fuel core.performanceFactor ("core-" ++ core.id) roots
    let others := analyzeCores fuel this.2.2 rest
    (this.1 && others.1, this.2.1 ++ others.2.1, others.2.2)

/-- Result of `analyzeSystem`; the wall-clock `timestamp` field of the
source is outside the embedding.  `rootComponents` is the component
tree after the in-place interface assignments. -/
structure AnalysisOutcome where
  isSchedulable : Bool
  componentInterfaces : List InterfaceRecord
  rootComponents : List Component

/-- src/unnamed/part_007 `analyzeSystem`: per core, process the roots
bound to it (by the `core-<coreId>` id convention); the system is
schedulable iff every processed component passed. -/
def analyzeSystem (m : SystemModel) : AnalysisOutcome :=
  let res := analyzeCores treeFuel m.rootComponents m.cores
  { isSchedulable := res.1, componentInterfaces := res.2.1, rootComponents := res.2.2 }

/-- Event kinds of the simulator (part_007 `SimulationEvent.type`). -/
inductive EventType where
  | arrival
  | deadline
  | completion
  | resourceSupplyStart
  | resourceSupplyEnd
deriving DecidableEq, Repr

/-- part_007 `SimulationEvent`. -/
structure SimulationEvent where
  time : ℚ
  type : EventType
  taskId : String
  componentId : String
deriving DecidableEq, Repr

/-- part_007 `TaskInstance`; `instanceId` is the value drawn from the
`Math.random()` supply at arrival. -/
structure TaskInstance where
  taskId : String
  instanceId : Nat
  componentId : String
  arrivalTime : ℚ
  executionTime : ℚ
  remainingTime : ℚ
  deadline : ℚ
  priority : Option ℚ
deriving DecidableEq, Repr

/-- part_007 `SimulationState`, with the JS `Map`s as insertion-ordered
association lists and the pending `Math.random()` draws made explicit. -/
structure SimulationState where
  currentTime : ℚ
  events : List SimulationEvent
  readyQueue : List TaskInstance
  activeTask : Option TaskInstance
  completedTasks : List TaskInstance
  responseTimeByTask : List (String × List ℚ)
  missedDeadlinesByTask : List (String × Nat)
  executionTimeByComponent : List (String × ℚ)
  resourceAvailableByComponent : List (String × Bool)
  rands : List Nat
deriving DecidableEq, Repr

/-- part_007 `findTaskById`: scan the roots bound to each core and their
direct children (one level only), returning the task with its owning
component and core. -/
def findTaskInChildren (children : List Component) (core : Core)
    (taskId : String) : Option (Task × Component × Core) :=
  match children with
  | [] => none
  | child :: rest =>
    match child.tasks.find? (fun t => t.id = taskId) with
    | some task => some (task, child, core)
    | none => findTaskInChildren rest core taskId

/-- Scan the matching roots of one core for a task (part_007
lines 679-697). -/
def findTaskInRoots (roots : List Component) (core : Core)
    (taskId : String) : Option (Task × Component × Core) :=
  match roots with
  | [] => none
  | root :: rest =>
    if strStartsWith root.id ("core-" ++ core.id) then
      match root.tasks.find? (fun t => t.id = taskId) with
      | some task => some (task, root, core)
      | none =>
        match root.childComponents with
        | some children =>
          match findTaskInChildren children core taskId with
          | some res => some res
          | none => findTaskInRoots rest core taskId
        | none => findTaskInRoots rest core taskId
    else findTaskInRoots rest core taskId

/-- part_007 `findTaskById` over all cores. -/
def findTaskById (m : SystemModel) (taskId : String) :
    Option (Task × Component × Core) :=
  match m.cores with
  | [] => none
  | _ =>
    (m.cores.foldl (fun acc core =>
      match acc with
      | some r => some r
      | none => findTaskInRoots m.rootComponents core taskId) none)

/-- part_007 `findComponentById`: the roots, then the direct children of
each root (one level only). -/
def findComponentById (m : SystemModel) (componentId : String) : Option Component :=
  match m.rootComponents.find? (fun c => c.id = componentId) with
  | some c => some c
  | none =>
    m.rootComponents.foldl (fun acc root =>
      match acc with
      | some r => some r
      | none =>
        match root.childComponents with
        | some children => children.find? (fun c => c.id = componentId)
        | none => none) none

/-- part_007 `getAllTasks`: tasks of the matching roots of each core and
of their direct children, in traversal order. -/
def getAllTasks (m : SystemModel) : List (Task × Component × Core) :=
  m.cores.flatMap (fun core =>
    (m.rootComponents.filter (fun c => strStartsWith c.id ("core-" ++ core.id))).flatMap
      (fun root =>
        root.tasks.map (fun t => (t, root, core)) ++
        (match root.childComponents with
         | some children =>
           children.flatMap (fun child => child.tasks.map (fun t => (t, child, core)))
         | none => [])))

/-- part_007 `handleTaskArrival`: create the instance (drawing its
random id), enqueue it, schedule its deadline event and — when the next
arrival falls before the horizon — the next arrival.  JS truthiness:
`(task as PeriodicTask).period` is falsy for `0` and `undefined`. -/
def handleTaskArrival (event : SimulationEvent) (m : SystemModel)
    (s : SimulationState) (simulationTime : ℚ) : SimulationState :=
  match findTaskById m event.taskId with
  | none => s
  | some (task, component, core) =>
    let adjustedExecutionTime := task.wcet / (jsNumOr (some core.performanceFactor) 1)
    let inst : TaskInstance :=
      { taskId := task.id
        instanceId := s.rands.headD 0
        componentId := component.id
        arrivalTime := event.time
        executionTime := adjustedExecutionTime
        remainingTime := adjustedExecutionTime
        deadline := event.time + task.deadline
        priority := task.priority }
    let s := { s with
      rands := s.rands.tail
      readyQueue := s.readyQueue ++ [inst]
      events := s.events ++
        [{ time := inst.deadline, type := .deadline, taskId := task.id,
           componentId := component.id }] }
    let nextStep : Option ℚ :=
      if jsTruthyNum task.period then task.period
      else if jsTruthyNum task.minimumInterArrivalTime then task.minimumInterArrivalTime
      else none
    match nextStep with
    | some T =>
      let nextArrivalTime := event.time + T
      if nextArrivalTime < simulationTime then
        { s with events := s.events ++
            [{ time := nextArrivalTime, type := .arrival, taskId := task.id,
               componentId := component.id }] }
      else s
    | none => s

/-- part_007 `handleTaskDeadline`: increment the task's missed-deadline
counter when ANY instance of the task is the active job or is in the
ready queue (the check is keyed by task id, not by instance). -/
def handleTaskDeadline (event : SimulationEvent) (s : SimulationState) :
    SimulationState :=
  let isActive :=
    match s.activeTask with
    | some a => a.taskId = event.taskId
    | none => false
  let isInReadyQueue := s.readyQueue.any (fun ti => ti.taskId = event.taskId)
  if isActive || isInReadyQueue then
    let missedCount := (mapGet event.taskId s.missedDeadlinesByTask).getD 0
    { s with missedDeadlinesByTask :=
        mapSet event.taskId (missedCount + 1) s.missedDeadlinesByTask }
  else s

/-- part_007 `handleTaskCompletion`: record the active job's response
time and clear the active slot (no-op when no job is active). -/
def handleTaskCompletion (s : SimulationState) : SimulationState :=
  match s.activeTask with
  | none => s
  | some active =>
    let completed := { active with remainingTime := 0 }
    let responseTime := s.currentTime - completed.arrivalTime
    let arr := (mapGet completed.taskId s.responseTimeByTask).getD []
    { s with
      completedTasks := s.completedTasks ++ [completed]
      responseTimeByTask :=
        mapSet completed.taskId (arr ++ [responseTime]) s.responseTimeByTask
      activeTask := none }

/-- part_007 `handleResourceSupplyStart`. -/
def handleResourceSupplyStart (event : SimulationEvent) (s : SimulationState) :
    SimulationState :=
  { s with resourceAvailableByComponent :=
      mapSet event.componentId true s.resourceAvailableByComponent }

/-- part_007 `handleResourceSupplyEnd`: revoke the component's supply
and, when the active job belongs to it, push that job back into the
ready queue unchanged and clear the active slot. -/
def handleResourceSupplyEnd (event : SimulationEvent) (s : SimulationState) :
    SimulationState :=
  let avail := mapSet event.componentId false s.resourceAvailableByComponent
  let s := { s with resourceAvailableByComponent := avail }
  match s.activeTask with
  | some active =>
    if active.componentId = event.componentId then
      { s with readyQueue := s.readyQueue ++ [active], activeTask := none }
    else s
  | none => s

/-- Group the ready queue by component id, preserving both the order of
first appearance of each component and the queue order inside each
group (part_007 lines 534-539, a JS `Map` of arrays). -/
def groupByComponent (queue : List TaskInstance) : List (String × List TaskInstance) :=
  queue.foldl (fun (m : List (String × List TaskInstance)) (ti : TaskInstance) =>
    mapSet ti.componentId ((mapGet ti.componentId m).getD [] ++ [ti]) m) []

/-- Candidate selection of `scheduleNextTask` (part_007 lines 541-569):
fold over the component groups in insertion order, skipping unsupplied
components, sorting each group by its component's discipline and
keeping the group head when it beats the current candidate. -/
def selectNextTask (m : SystemModel) (s : SimulationState) : Option TaskInstance :=
  (groupByComponent s.readyQueue).foldl
    (fun (selected : Option TaskInstance) (entry : String × List TaskInstance) =>
    if mapGet entry.1 s.resourceAvailableByComponent ≠ some true then selected
    else
      match findComponentById m entry.1 with
      | none => selected
      | some component =>
        let sorted :=
          match component.schedulingAlgorithm with
          | .EDF => stableSortBy (fun (ti : TaskInstance) => ti.deadline) entry.2
          | .FPS => stableSortBy (fun (ti : TaskInstance) => (ti.priority).getD 0) entry.2
        match sorted with
        | [] => selected
        | t0 :: _ =>
          match selected with
          | none => some t0
          | some sel =>
            if (component.schedulingAlgorithm = .EDF && t0.deadline < sel.deadline)
                || (component.schedulingAlgorithm = .FPS &&
                    (t0.priority).getD 0 < (sel.priority).getD 0) then
              some t0
            else selected) none

/-- part_007 `scheduleNextTask`: when no job is active, dispatch the
selected job — removing EVERY queue entry that shares its task id and
instance id — schedule its completion at `now + remaining`, and charge
its full remaining time to its component's execution-time account. -/
def scheduleNextTask (s : SimulationState) (m : SystemModel) : SimulationState :=
  if s.activeTask.isSome then s
  else if s.readyQueue.isEmpty then s
  else
    match selectNextTask m s with
    | none => s
    | some sel =>
      { s with
        readyQueue := s.readyQueue.filter (fun ti =>
          !(ti.taskId = sel.taskId && ti.instanceId = sel.instanceId))
        activeTask := some sel
        events := s.events ++
          [{ time := s.currentTime + sel.remainingTime, type := .completion,
             taskId := sel.taskId, componentId := sel.componentId }]
        executionTimeByComponent :=
          mapSet sel.componentId
            ((mapGet sel.componentId s.executionTimeByComponent).getD 0 +
              sel.remainingTime)
            s.executionTimeByComponent }

/-- part_007 `initializeComponentResourceAvailability`: the component is
marked available, each child unavailable — but the recursion (entered
only for children that themselves have children) marks such a child
available again.  One unit of fuel per tree level. -/
def initComponentAvailability : Nat → Component → List (String × Bool) →
    List (String × Bool)
  | 0, _, flags => flags
  | fuel + 1, c, flags =>
    match c with
    | .mk i _ _ _ _ _ none => mapSet i true flags
    | .mk i _ _ _ _ _ (some cs) =>
      cs.foldl
        (fun (flags : List (String × Bool)) child =>
          let flags := mapSet child.id false flags
          if (child.childComponents).isSome then
            initComponentAvailability fuel child flags
          else flags)
        (mapSet i true flags)

/-- Supply-window loop of `generateInitialEvents` (part_007
lines 646-666): `while (time < simulationTime)` push a supply-start at
`time` and a supply-end at `time + budget`, then advance by the period.
The loop carries explicit fuel; the second component reports whether
the loop terminated within the fuel (with a zero period and a positive
horizon it never does). -/
def genSupplyAux (childId : String) (supplyBudget supplyPeriod simulationTime : ℚ) :
    Nat → ℚ → List SimulationEvent × Bool
  | 0, _ => ([], false)
  | fuel + 1, time =>
    if time < simulationTime then
      let here : List SimulationEvent :=
        [{ time := time, type := .resourceSupplyStart, taskId := "", componentId := childId },
         { time := time + supplyBudget, type := .resourceSupplyEnd, taskId := "",
           componentId := childId }]
      let rest := genSupplyAux childId supplyBudget supplyPeriod simulationTime fuel
        (time + supplyPeriod)
      (here ++ rest.1, rest.2)
    else ([], true)

/-- Fuel of the supply-window loops at the simulator entry point. -/
def supplyFuel : Nat := 1000

/-- part_007 `generateInitialEvents`: an arrival at `t = 0` for each of
the component's tasks, then — for each child with an assigned interface
— the cyclic supply windows of its Half-Half server, then recursion
into the child.  One unit of fuel per tree level. -/
def generateInitialEvents : Nat → Component → ℚ → List SimulationEvent →
    List SimulationEvent
  | 0, _, _, evs => evs
  | fuel + 1, c, simulationTime, evs =>
    match c with
    | .mk i _ _ _ _ ts children =>
      let evs := evs ++ ts.map (fun task =>
        { time := 0, type := .arrival, taskId := task.id, componentId := i })
      match children with
      | none => evs
      | some cs =>
        cs.foldl
          (fun (evs : List SimulationEvent) child =>
            let evs :=
              match child.alpha, child.delta with
              | some a, some d =>
                let supplyPeriod := 2 * d
                let supplyBudget := a * supplyPeriod
                evs ++ (genSupplyAux child.id supplyBudget supplyPeriod
                  simulationTime supplyFuel 0).1
              | _, _ => evs
            generateInitialEvents fuel child simulationTime evs)
          evs

/-- Initial simulation state (part_007 lines 293-321): zeroed counters
and empty response lists for every task of `getAllTasks`, availability
flags from the root components, and the initial arrival / supply
events. -/
def initState (m : SystemModel) (simulationTime : ℚ) (rands : List Nat) :
    SimulationState :=
  let s0 : SimulationState :=
    { currentTime := 0, events := [], readyQueue := [], activeTask := none,
      completedTasks := [], responseTimeByTask := [], missedDeadlinesByTask := [],
      executionTimeByComponent := [], resourceAvailableByComponent := [],
      rands := rands }
  let s1 := (getAllTasks m).foldl (fun (s : SimulationState) info =>
    { s with
      missedDeadlinesByTask := mapSet info.1.id 0 s.missedDeadlinesByTask
      responseTimeByTask := mapSet info.1.id [] s.responseTimeByTask }) s0
  let flags := m.rootComponents.foldl
    (fun (f : List (String × Bool)) c => initComponentAvailability treeFuel c f) []
  let evs := m.rootComponents.foldl
    (fun (e : List SimulationEvent) c =>
      generateInitialEvents treeFuel c simulationTime e) []
  { s1 with resourceAvailableByComponent := flags, events := evs }

/-- One iteration of the main simulation loop (part_007 lines 324-351):
while the current time is below the horizon and events remain, sort the
event list by time (stably — `Array.sort` with the `a.time - b.time`
comparator), shift the first event, advance the clock, dispatch on the
event type, and reschedule.  Returns `none` when the loop exits. -/
def simStep (m : SystemModel) (simulationTime : ℚ) (s : SimulationState) :
    Option SimulationState :=
  if s.currentTime < simulationTime ∧ s.events ≠ [] then
    match stableSortBy (fun (e : SimulationEvent) => e.time) s.events with
    | [] => none
    | event :: rest =>
      let s := { s with events := rest, currentTime := event.time }
      let s :=
        match event.type with
        | .arrival => handleTaskArrival event m s simulationTime
        | .deadline => handleTaskDeadline event s
        | .completion => handleTaskCompletion s
        | .resourceSupplyStart => handleResourceSupplyStart event s
        | .resourceSupplyEnd => handleResourceSupplyEnd event s
      some (scheduleNextTask s m)
  else none

/-- Run at most `fuel` iterations of the main loop (the source's
`while`; the fuel at the entry point exceeds the number of events any
model analysed here can generate). -/
def runLoop (m : SystemModel) (simulationTime : ℚ) :
    Nat → SimulationState → SimulationState
  | 0, s => s
  | fuel + 1, s =>
    match simStep m simulationTime s with
    | none => s
    | some s' => runLoop m simulationTime fuel s'

/-- Fuel of the main simulation loop at the entry point. -/
def loopFuel : Nat := 100000

/-- Per-task result record (part_007 `TaskResponseTime`). -/
structure TaskResponseTime where
  taskId : String
  averageResponseTime : ℚ
  maximumResponseTime : ℚ
  missedDeadlines : Nat
deriving DecidableEq, Repr

/-- Per-component result record (part_007 `ComponentUtilization`). -/
structure ComponentUtilization where
  componentId : String
  utilization : ℚ
  allocatedUtilization : ℚ
deriving DecidableEq, Repr

/-- part_007 `SimulationResults`; the wall-clock `timestamp` field is
outside the embedding. -/
structure SimulationResults where
  taskResponseTimes : List TaskResponseTime
  componentUtilizations : List ComponentUtilization
  simulationTime : ℚ
deriving DecidableEq, Repr

/-- src/unnamed/part_007 `runSimulation`: run the event loop and compile
the results.  A task with no recorded completions reports all-zero
fields — including `missedDeadlines`, even if its counter is positive
(part_007 lines 367-374). -/
def runSimulation (m : SystemModel) (simulationTime : ℚ) (rands : List Nat) :
    SimulationResults :=
  let s := runLoop m simulationTime loopFuel (initState m simulationTime rands)
  let taskResponseTimes := s.responseTimeByTask.map (fun entry =>
    match entry.2 with
    | [] =>
      { taskId := entry.1, averageResponseTime := 0, maximumResponseTime := 0,
        missedDeadlines := 0 }
    | t0 :: rest =>
      { taskId := entry.1
        averageResponseTime := (entry.2.foldl (· + ·) 0) / (entry.2.length : ℚ)
        maximumResponseTime := maxOfList t0 rest
        missedDeadlines := (mapGet entry.1 s.missedDeadlinesByTask).getD 0 })
  let componentUtilizations := s.executionTimeByComponent.filterMap (fun entry =>
    (findComponentById m entry.1).map (fun c =>
      { componentId := entry.1
        utilization := entry.2 / simulationTime
        allocatedUtilization := (c.alpha).getD 0 }))
  { taskResponseTimes := taskResponseTimes,
    componentUtilizations := componentUtilizations,
    simulationTime := simulationTime }

end Part007

/-!
Concrete models used by the claim theorems below.  Each is a valid
`SystemModel` in the sense of the ingestion contract (single core,
roots bound by the `core-<coreId>` prefix convention).
-/

/-- One EDF component with `α = 1/2`, `Δ = 0` and a single task of
utilization `3/5 > α` (wcet 3, period 5, deadline 40). -/
def exOverUtilComponent : Component :=
  .mk "comp" "Over" .EDF (some (1 / 2)) (some 0)
    [⟨"t", "T", 3, 40, none, some 5, none⟩] none

/-- One EDF component with utilization `3/2 > 1` (wcet 3, period 2). -/
def exAboveOneComponent : Component :=
  .mk "w" "W" .EDF none none [⟨"t", "T", 3, 2, none, some 2, none⟩] none

/-- Model with an empty root and one child component `c1` holding the
interface `(α = 1, Δ = 3/2)` (Half-Half server `P = 3`, `Q = 3`) and a
single task of wcet 5: its job is dispatched at `t = 0` and preempted
by the supply-end at `t = 3`. -/
def exSupplyModel : SystemModel :=
  { cores := [⟨"1", "Core 1", 1⟩],
    rootComponents := [.mk "core-1-root" "Root" .EDF (some 1) (some 0) []
      (some [.mk "c1" "Child" .EDF (some 1) (some (3 / 2))
        [⟨"t1", "T1", 5, 50, none, some 100, none⟩] none])] }

/-- Model with one EDF root task of wcet 1, period 2 and relative
deadline 3 (deadline beyond the period, so consecutive jobs overlap the
previous job's deadline instant). -/
def exDeadlineModel : SystemModel :=
  { cores := [⟨"1", "Core 1", 1⟩],
    rootComponents := [.mk "core-1-root" "Root" .EDF (some 1) (some 0)
      [⟨"t1", "T1", 1, 3, none, some 2, none⟩] none] }

/-- Overloaded model (one EDF root task of wcet 3, period 1, deadline
1): several instances of the task pile up in the ready queue, making
the dispatch filter sensitive to instance-id collisions. -/
def exRandModel : SystemModel :=
  { cores := [⟨"1", "Core 1", 1⟩],
    rootComponents := [.mk "core-1-root" "Root" .EDF (some 1) (some 0)
      [⟨"t1", "T1", 3, 1, none, some 1, none⟩] none] }

/-- Component no `(α ≤ 1, Δ ≥ 0)` can satisfy: a single task demanding
10 units each period 1 (utilization 10). -/
def exInfeasibleChild : Component :=
  .mk "c5" "Child" .EDF none none [⟨"t5", "T5", 10, 1, none, some 1, none⟩] none

/-- Model whose only child component is `exInfeasibleChild`. -/
def exInfeasibleModel : SystemModel :=
  { cores := [⟨"1", "Core 1", 1⟩],
    rootComponents := [.mk "core-1-root" "Root" .EDF none none []
      (some [exInfeasibleChild])] }

/-- Lookup of a key just set returns the set value. -/
theorem mapGet_mapSet_self {α : Type} (k : String) (v : α) (l : List (String × α)) :
    mapGet k (mapSet k v l) = some v := by
  induction l with
  | nil => simp [mapGet, mapSet]
  | cons hd tl ih =>
    by_cases h : hd.1 = k
    · simp [mapGet, mapSet, h]
    · simpa [mapGet, mapSet, h] using ih

/-- C1 (counterexample): a component whose task utilization `3/5`
exceeds its `α = 1/2` on a unit-performance core, for which
`isSchedulableWithInterface` nevertheless returns `true`: the sampled
DBF ≤ SBF check passes at every probed point of `[0, 90]` because the
demand crossover lies beyond the sampled bound, and no `Σu > α`
pre-check exists. -/
theorem c1_counterexample :
    exOverUtilComponent.alpha = some (1 / 2) ∧
    exOverUtilComponent.delta = some 0 ∧
    (1 : ℚ) / 2 < Part007.scaledUtilization exOverUtilComponent.tasks 1 ∧
    Part007.isSchedulableWithInterface exOverUtilComponent 1 = true := by
  refine ⟨rfl, rfl, by decide, by decide⟩

/-- C1 (amended): the only utilization pre-check in the code is in
part_005's `isComponentSchedulable`, and it compares the UNSCALED
utilization `Σ wcet/period` against `1` — not against `α`, and not
scaled by the performance factor: whenever that sum exceeds `1` the
test returns `false` immediately.  `isSchedulableWithInterface`
(part_007) has no utilization pre-check at all and can return `true`
for a component with `Σu/p > α` (see the counterexample). -/
theorem c1_utilization_precheck (c : Component)
    (h : 1 < Part005.utilization (Part005.fpsSortedTasks c)) :
    Part005.isComponentSchedulable c = false := by
  unfold Part005.isComponentSchedulable
  simp only [if_pos h]

/-- C1 (witness): the pre-check fires on a component of utilization
`3/2`. -/
theorem c1_witness :
    (1 < Part005.utilization (Part005.fpsSortedTasks exAboveOneComponent)) ∧
    Part005.isComponentSchedulable exAboveOneComponent = false :=
  ⟨by decide, c1_utilization_precheck exAboveOneComponent (by decide)⟩

/-- C3 (code_bug evaluation): in `exDeadlineModel` over horizon 6,
three jobs of `t1` arrive (at 0, 2, 4), every one of them completes one
time unit after its arrival — well before its absolute deadline at
arrival + 3 — yet the missed-deadline counter reports 2, because
`handleTaskDeadline` tests by task id: when the deadline event of the
already-completed instance k fires at `t = 2k + 3`, instance k+1 is
active, and the counter is wrongly incremented. -/
theorem c3_deadline_miscount :
    (Part007.runSimulation exDeadlineModel 6 (List.range 20)).taskResponseTimes =
      [{ taskId := "t1", averageResponseTime := 1, maximumResponseTime := 1,
         missedDeadlines := 2 }] ∧
    (Part007.runLoop exDeadlineModel 6 Part007.loopFuel
        (Part007.initState exDeadlineModel 6 (List.range 20))).completedTasks.map
      (fun ti => (ti.arrivalTime, ti.arrivalTime + ti.executionTime, ti.deadline)) =
      [(0, 1, 3), (2, 3, 5), (4, 5, 7)] ∧
    mapGet "t1" (Part007.runLoop exDeadlineModel 6 Part007.loopFuel
        (Part007.initState exDeadlineModel 6 (List.range 20))).responseTimeByTask =
      some [1, 1, 1] := by
  refine ⟨by decide, by decide, by decide⟩

/-- C4 (code_bug evaluation): `runSimulation` draws each job's
`instanceId` from `Math.random()` (modelled by the explicit supply
`rands`).  On `exRandModel` with horizon 10, a supply of pairwise
distinct ids and a supply of all-equal ids give DIFFERENT results: with
equal ids, the dispatch filter `taskId = sel ∧ instanceId = sel` drops
every queued instance of the task at once, losing jobs.  The two runs
disagree on identical inputs, so the simulation outcome is not a
function of (model, horizon) alone. -/
theorem c4_nondeterminism :
    (Part007.runSimulation exRandModel 10 (List.range 20)).taskResponseTimes =
      [{ taskId := "t1", averageResponseTime := 5, maximumResponseTime := 7,
         missedDeadlines := 10 }] ∧
    (Part007.runSimulation exRandModel 10 (List.replicate 20 0)).taskResponseTimes =
      [{ taskId := "t1", averageResponseTime := 14 / 3, maximumResponseTime := 6,
         missedDeadlines := 10 }] ∧
    Part007.runSimulation exRandModel 10 (List.range 20) ≠
      Part007.runSimulation exRandModel 10 (List.replicate 20 0) := by
  refine ⟨by decide, by decide, by decide⟩

/-- C8: the supply bound function of the BDR model is non-decreasing in
`t`, non-decreasing in `α`, and — at any `t` past the delay — strictly
decreasing when the delay grows. -/
theorem c8_sbf_monotonicity (alpha delta t : ℚ)
    (halpha : 0 < alpha) (halpha1 : alpha ≤ 1) (hdelta : 0 ≤ delta) :
    (∀ s, t ≤ s →
      Part004.calculateSBFforBDR alpha delta t ≤ Part004.calculateSBFforBDR alpha delta s) ∧
    (∀ alpha2, alpha ≤ alpha2 →
      Part004.calculateSBFforBDR alpha delta t ≤ Part004.calculateSBFforBDR alpha2 delta t) ∧
    (∀ delta2, delta < delta2 → delta < t →
      Part004.calculateSBFforBDR alpha delta2 t < Part004.calculateSBFforBDR alpha delta t) := by
  unfold Part004.calculateSBFforBDR
  refine ⟨?_, ?_, ?_⟩
  · intro s hs
    by_cases h1 : t ≤ delta
    · rw [if_pos h1]
      by_cases h2 : s ≤ delta
      · rw [if_pos h2]
      · rw [if_neg h2]
        push_neg at h2
        nlinarith
    · rw [if_neg h1]
      push_neg at h1
      rw [if_neg (by linarith : ¬ s ≤ delta)]
      nlinarith
  · intro alpha2 h2
    by_cases h1 : t ≤ delta
    · rw [if_pos h1, if_pos h1]
    · rw [if_neg h1, if_neg h1]
      push_neg at h1
      nlinarith
  · intro delta2 hd2 hdt
    rw [if_neg (by linarith : ¬ t ≤ delta)]
    by_cases h1 : t ≤ delta2
    · rw [if_pos h1]
      nlinarith
    · rw [if_neg h1]
      push_neg at h1
      nlinarith

/-- C8 (witness): the three monotonicity properties at
`α = 1/2, Δ = 1, t = 2`. -/
theorem c8_witness :
    ((0 : ℚ) < 1 / 2 ∧ (1 : ℚ) / 2 ≤ 1 ∧ (0 : ℚ) ≤ 1) ∧
    ((∀ s, (2 : ℚ) ≤ s →
      Part004.calculateSBFforBDR (1 / 2) 1 2 ≤ Part004.calculateSBFforBDR (1 / 2) 1 s) ∧
    (∀ alpha2, (1 : ℚ) / 2 ≤ alpha2 →
      Part004.calculateSBFforBDR (1 / 2) 1 2 ≤ Part004.calculateSBFforBDR alpha2 1 2) ∧
    (∀ delta2, (1 : ℚ) < delta2 → (1 : ℚ) < 2 →
      Part004.calculateSBFforBDR (1 / 2) delta2 2 < Part004.calculateSBFforBDR (1 / 2) 1 2)) :=
  ⟨by norm_num, c8_sbf_monotonicity (1 / 2) 1 2 (by norm_num) (by norm_num) (by norm_num)⟩

/-- C9 (code_bug evaluation): `applyHalfHalfAlgorithm` does return
`P = 2Δ`, `Q = α·P` for every input — but the simulator has NO special
case for `Δ = 0`: the supply-window loop of `generateInitialEvents`
then runs with `supplyPeriod = 0`, its time variable never advances,
and (here at `α = 1/2`, horizon 1) it never terminates: for every
amount of fuel the loop is still unfinished. -/
theorem c9_delta_zero_loop :
    (∀ alpha delta : ℚ, Part004.applyHalfHalfAlgorithm alpha delta =
      { supplyBudget := alpha * (2 * delta), supplyPeriod := 2 * delta }) ∧
    (∀ fuel : Nat,
      (Part007.genSupplyAux "c1" ((1 : ℚ) / 2 * (2 * 0)) (2 * 0) 1 fuel 0).2 = false) := by
  constructor
  · intro alpha delta
    rfl
  · intro fuel
    induction fuel with
    | zero => rfl
    | succ f ih =>
      rw [Part007.genSupplyAux]
      rw [if_pos (by norm_num : (0 : ℚ) < 1)]
      have harg : (0 : ℚ) + 2 * 0 = 0 := by norm_num
      simpa [harg] using ih

/-- Pulling a positive factor out of an integer `max 0`: the two ways
the duplicated DBF implementations clamp the job count agree. -/
theorem max_zero_mul_pos (m : ℤ) (C : ℚ) (hC : 0 < C) :
    ((max 0 m : ℤ) : ℚ) * C = max 0 ((m : ℚ) * C) := by
  rcases le_total 0 m with hm | hm
  · rw [max_eq_right hm, max_eq_right]
    exact mul_nonneg (by exact_mod_cast hm) hC.le
  · rw [max_eq_left hm, max_eq_left]
    · norm_num
    · have hm2 : (m : ℚ) ≤ 0 := by exact_mod_cast hm
      exact mul_nonpos_of_nonpos_of_nonneg hm2 hC.le

/-- Shift of the floor by one period: `⌊(t + T - D)/T⌋ = ⌊(t - D)/T⌋ + 1`
whenever `T > 0`. -/
theorem floor_shift_period (t D T : ℚ) (hT : 0 < T) :
    ⌊(t + T - D) / T⌋ = ⌊(t - D) / T⌋ + 1 := by
  have h : (t + T - D) / T = (t - D) / T + 1 := by
    field_simp
    ring
  rw [h, Int.floor_add_one]

/-- Per-task contributions of the two EDF demand-bound variants agree
for a task with positive wcet and positive period (or MIT). -/
theorem dbf_contribution_eq (task : Task) (t : ℚ)
    (hw : 0 < task.wcet) (hp : 0 < (task.period).getD 1)
    (hm : 0 < (task.minimumInterArrivalTime).getD 1) :
    (∀ T, task.period = some T →
      ((max 0 (⌊(t - task.deadline) / T⌋ + 1) : ℤ) : ℚ) * task.wcet =
        max 0 (((⌊(t + T - task.deadline) / T⌋ : ℤ) : ℚ) * task.wcet)) ∧
    (∀ M, task.minimumInterArrivalTime = some M →
      ((max 0 (⌊(t - task.deadline) / M⌋ + 1) : ℤ) : ℚ) * task.wcet =
        max 0 (((⌊(t + M - task.deadline) / M⌋ : ℤ) : ℚ) * task.wcet)) := by
  constructor
  · intro T hT
    have hT0 : 0 < T := by rw [hT] at hp; simpa using hp
    rw [floor_shift_period t task.deadline T hT0]
    exact max_zero_mul_pos _ _ hw
  · intro M hM
    have hM0 : 0 < M := by rw [hM] at hm; simpa using hm
    rw [floor_shift_period t task.deadline M hM0]
    exact max_zero_mul_pos _ _ hw

/-- Two left folds agree when their step functions agree on every
element of the list. -/
theorem foldl_congr_mem {α β : Type} (f g : β → α → β) (l : List α)
    (h : ∀ b x, x ∈ l → f b x = g b x) : ∀ b, l.foldl f b = l.foldl g b := by
  induction l with
  | nil => intro b; rfl
  | cons x xs ih =>
    intro b
    simp only [List.foldl_cons]
    rw [h b x (by simp)]
    exact ih (fun b2 y hy => h b2 y (by simp [hy])) _

/-- C10: the two duplicated EDF demand-bound implementations — part_004
computing `max(0, ⌊(t-D)/T⌋ + 1) · wcet` per task and part_006 computing
`max(0, ⌊(t+T-D)/T⌋ · wcet)` per task — return the same total demand on
every task list whose tasks have positive wcet and positive period /
minimum inter-arrival time, at every `t`. -/
theorem c10_dbf_equivalence (tasks : List Task) (t : ℚ)
    (h : ∀ task ∈ tasks, 0 < task.wcet ∧ 0 < (task.period).getD 1 ∧
      0 < (task.minimumInterArrivalTime).getD 1) :
    Part004.calculateDBFforEDF tasks t = Part006.calculateDBFforEDF tasks t := by
  unfold Part004.calculateDBFforEDF Part006.calculateDBFforEDF
  refine foldl_congr_mem _ _ tasks (fun acc task hmem => ?_) 0
  have htask := h task hmem
  have hcontrib := dbf_contribution_eq task t htask.1 htask.2.1 htask.2.2
  cases hT : task.period with
  | some T => simp only [hcontrib.1 T hT]
  | none =>
    cases hM : task.minimumInterArrivalTime with
    | some M => simp only [hcontrib.2 M hM]
    | none => rfl

/-- C10 (witness): the equivalence at `t = 7` on one periodic and one
sporadic task. -/
theorem c10_witness :
    (∀ task ∈ [(⟨"a", "A", 2, 5, none, some 3, none⟩ : Task),
        ⟨"b", "B", 1, 4, none, none, some 2⟩],
      0 < task.wcet ∧ 0 < (task.period).getD 1 ∧
        0 < (task.minimumInterArrivalTime).getD 1) ∧
    Part004.calculateDBFforEDF
        [⟨"a", "A", 2, 5, none, some 3, none⟩, ⟨"b", "B", 1, 4, none, none, some 2⟩] 7 =
      Part006.calculateDBFforEDF
        [⟨"a", "A", 2, 5, none, some 3, none⟩, ⟨"b", "B", 1, 4, none, none, some 2⟩] 7 :=
  ⟨by decide, c10_dbf_equivalence _ 7 (by decide)⟩

/-- C2 (amended): `handleResourceSupplyEnd` sets the component's
`resource_available` flag to `false` and, exactly when the active job
belongs to that component, appends THAT JOB UNCHANGED to the (single,
global) ready queue and clears the active slot.  In particular the
job's remaining execution time is NOT reduced by the time elapsed since
its dispatch — the handler does not read any clock and the state does
not even record a dispatch time. -/
theorem c2_supply_end_spec (event : Part007.SimulationEvent)
    (s : Part007.SimulationState) :
    mapGet event.componentId
      (Part007.handleResourceSupplyEnd event s).resourceAvailableByComponent =
      some false ∧
    ((∃ j, s.activeTask = some j ∧ j.componentId = event.componentId ∧
        (Part007.handleResourceSupplyEnd event s).readyQueue = s.readyQueue ++ [j] ∧
        (Part007.handleResourceSupplyEnd event s).activeTask = none) ∨
      ((∀ j, s.activeTask = some j → j.componentId ≠ event.componentId) ∧
        (Part007.handleResourceSupplyEnd event s).readyQueue = s.readyQueue ∧
        (Part007.handleResourceSupplyEnd event s).activeTask = s.activeTask)) := by
  unfold Part007.handleResourceSupplyEnd
  cases hA : s.activeTask with
  | none =>
    refine ⟨mapGet_mapSet_self _ _ _, Or.inr ⟨?_, rfl, ?_⟩⟩
    · intro j hj
      exact absurd hj (by simp)
    · simp [hA]
  | some j =>
    by_cases hc : j.componentId = event.componentId
    · refine ⟨?_, Or.inl ⟨j, rfl, hc, ?_, ?_⟩⟩ <;> simp [hA, hc, mapGet_mapSet_self]
    · refine ⟨?_, Or.inr ⟨?_, ?_, ?_⟩⟩
      · simp [hA, hc, mapGet_mapSet_self]
      · intro j2 hj2
        cases hj2
        exact hc
      · simp [hA, hc]
      · simp [hA, hc]

/-- C2 (counterexample): in `exSupplyModel`, after two simulation steps
(`supply-start@0`, then the arrival and dispatch of the wcet-5 job of
`c1`) the job is active with remaining time 5 at time 0; the third step
processes `supply-end@3`: the flag drops to `false`, the active slot is
cleared — and the job is re-queued with remaining time STILL 5, not the
`5 - (3 - 0) = 2` the claim's subtraction of elapsed-since-dispatch
requires. -/
theorem c2_counterexample :
    (Part007.runLoop exSupplyModel 4 2 (Part007.initState exSupplyModel 4 [7])).currentTime
      = 0 ∧
    (Part007.runLoop exSupplyModel 4 2 (Part007.initState exSupplyModel 4 [7])).activeTask
      = some ⟨"t1", 7, "c1", 0, 5, 5, 50, none⟩ ∧
    (Part007.runLoop exSupplyModel 4 3 (Part007.initState exSupplyModel 4 [7])).currentTime
      = 3 ∧
    mapGet "c1" (Part007.runLoop exSupplyModel 4 3
        (Part007.initState exSupplyModel 4 [7])).resourceAvailableByComponent
      = some false ∧
    (Part007.runLoop exSupplyModel 4 3 (Part007.initState exSupplyModel 4 [7])).activeTask
      = none ∧
    (Part007.runLoop exSupplyModel 4 3
        (Part007.initState exSupplyModel 4 [7])).readyQueue.map
      (fun ti => ti.remainingTime) = [5] ∧
    ¬ (5 : ℚ) = 5 - (3 - 0) := by
  refine ⟨by decide, by decide, by decide, by decide, by decide, by decide, by decide⟩

/-- The sampled EDF check fails as soon as demand exceeds supply at one
sampled point. -/
theorem checkEDF_false_of_point (tasks : List Task) (alpha delta : ℚ)
    (points : List ℚ) (t : ℚ) (ht : t ∈ points)
    (hv : Part004.calculateSBFforBDR alpha delta t <
      Part004.calculateDBFforEDF tasks t) :
    Part007.checkEDF tasks alpha delta points = false := by
  simp only [Part007.checkEDF, List.all_eq_false]
  refine ⟨t, ht, ?_⟩
  simp only [decide_eq_true_eq]
  intro hle
  linarith

/-- `isSchedulableWithInterface` returns `false` on an EDF component as
soon as demand exceeds supply at one sampled point. -/
theorem isSched_false_of_edf_point (i n : String) (a d : Option ℚ)
    (t0 : Task) (rest : List Task) (p alpha delta t : ℚ)
    (ha : a = some alpha) (hd : d = some delta)
    (ht : t ∈ Part007.samplePoints
      (2 * (Part007.maxDeadlineOf t0 rest + Part007.maxPeriodOf t0 rest))
      (((max 1 ⌊2 * (Part007.maxDeadlineOf t0 rest + Part007.maxPeriodOf t0 rest) / 100⌋ : ℤ) : ℚ)))
    (hv : Part004.calculateSBFforBDR alpha delta t <
      Part004.calculateDBFforEDF (Part007.adjustTasks (t0 :: rest) p) t) :
    Part007.isSchedulableWithInterface
      (.mk i n .EDF a d (t0 :: rest) none) p = false := by
  subst ha hd
  unfold Part007.isSchedulableWithInterface
  exact checkEDF_false_of_point _ _ _ _ t ht hv

/-- C5 (counterexample): `exInfeasibleChild` (one EDF task of wcet 10,
period 1, deadline 1) fails the feasibility test for EVERY
`(α ≤ 1, Δ ≥ 0)` — at the sampled point `t = 1` the scaled demand is 10
while the supply is at most `α·1 ≤ 1` — yet the synthesizer emits its
record with `α = 1` (not an `α > 1` sentinel): every emitted `α` is
`≤ 1`.  The analysis does report `isSchedulable = false`. -/
theorem c5_counterexample :
    (∀ a d : ℚ, a ≤ 1 → 0 ≤ d →
      Part007.isSchedulableWithInterface
        (exInfeasibleChild.withInterface (some a) (some d)) 1 = false) ∧
    (Part007.analyzeSystem exInfeasibleModel).isSchedulable = false ∧
    (∀ r ∈ (Part007.analyzeSystem exInfeasibleModel).componentInterfaces,
      r.alpha ≤ 1) := by
  refine ⟨?_, by decide, by decide⟩
  intro a d ha hd
  refine isSched_false_of_edf_point "c5" "Child" (some a) (some d)
    ⟨"t5", "T5", 10, 1, none, some 1, none⟩ [] 1 a d 1 rfl rfl (by decide) ?_
  have hdbf : Part004.calculateDBFforEDF
      (Part007.adjustTasks [⟨"t5", "T5", 10, 1, none, some 1, none⟩] 1) 1 = 10 := by
    decide
  rw [hdbf]
  unfold Part004.calculateSBFforBDR
  by_cases h1 : (1 : ℚ) ≤ d
  · rw [if_pos h1]
    norm_num
  · rw [if_neg h1]
    push_neg at h1
    nlinarith

/-- C5 (amended): when no `(α ≤ 1, Δ ≥ 0)` satisfies a component, the
synthesizer reports `isSchedulable = false` (through the direct
re-check of the assigned interface), but it never produces an `α > 1`
sentinel: every `α` returned by `calculateMinimumInterface` is capped
at 1 by the `min(·, 1)` in both the initial guess and the retry, so the
offending component's record carries its last trial `α ≤ 1` (here
`α = 1, Δ = 2`, the loosest probed interface). -/
theorem c5_alpha_capped :
    (∀ (fuel : Nat) (c : Component) (p : ℚ),
      (Part007.calculateMinimumInterface fuel c p).1 ≤ 1) ∧
    (Part007.analyzeSystem exInfeasibleModel).isSchedulable = false ∧
    (Part007.analyzeSystem exInfeasibleModel).componentInterfaces =
      [⟨"c5", 1, 2, some 4, some 4⟩, ⟨"c5", 1, 2, none, none⟩,
       ⟨"core-1-root", 1, 0, none, none⟩] := by
  refine ⟨?_, by decide, by decide⟩
  intro fuel
  induction fuel with
  | zero =>
    intro c p
    rw [Part007.calculateMinimumInterface]
    split
    · exact min_le_right _ _
    · exact min_le_right _ _
  | succ f ih =>
    intro c p
    rw [Part007.calculateMinimumInterface]
    split
    · exact ih _ _
    · exact min_le_right _ _

/-- Membership in a stable insertion. -/
theorem mem_insertSorted {α : Type} (key : α → ℚ) (x y : α) (l : List α) :
    y ∈ insertSorted key x l ↔ y = x ∨ y ∈ l := by
  induction l with
  | nil => simp [insertSorted]
  | cons z zs ih =>
    by_cases h : key x ≤ key z
    · simp [insertSorted, h]
    · simp only [insertSorted, if_neg h, List.mem_cons, ih]
      tauto

/-- Stable insertion preserves sortedness by the key. -/
theorem insertSorted_pairwise {α : Type} (key : α → ℚ) (x : α) (l : List α)
    (h : l.Pairwise (fun a b => key a ≤ key b)) :
    (insertSorted key x l).Pairwise (fun a b => key a ≤ key b) := by
  induction l with
  | nil => simp [insertSorted]
  | cons z zs ih =>
    rcases List.pairwise_cons.mp h with ⟨hz, hzs⟩
    by_cases hle : key x ≤ key z
    · rw [insertSorted, if_pos hle]
      refine List.pairwise_cons.mpr ⟨?_, h⟩
      intro y hy
      rcases List.mem_cons.mp hy with hy | hy
      · rw [hy]
        exact hle
      · exact le_trans hle (hz y hy)
    · rw [insertSorted, if_neg hle]
      refine List.pairwise_cons.mpr ⟨?_, ih hzs⟩
      intro y hy
      rcases (mem_insertSorted key x y zs).mp hy with hy | hy
      · rw [hy]
        exact le_of_lt (lt_of_not_le hle)
      · exact hz y hy

/-- The stable sort is sorted by the key. -/
theorem stableSortBy_pairwise {α : Type} (key : α → ℚ) (l : List α) :
    (stableSortBy key l).Pairwise (fun a b => key a ≤ key b) := by
  induction l with
  | nil => simp [stableSortBy]
  | cons x xs ih => exact insertSorted_pairwise key x _ ih

/-- Filtering at one key value through a stable insertion: an element
with that key lands in front of every equal-keyed element already
present, and elements with other keys are unaffected. -/
theorem filter_insertSorted {α : Type} (key : α → ℚ) (x : α) (l : List α) (q : ℚ) :
    (insertSorted key x l).filter (fun a => decide (key a = q)) =
      (if key x = q then [x] else []) ++ l.filter (fun a => decide (key a = q)) := by
  induction l with
  | nil =>
    by_cases h : key x = q <;> simp [insertSorted, h]
  | cons z zs ih =>
    by_cases hle : key x ≤ key z
    · rw [insertSorted, if_pos hle]
      by_cases h : key x = q <;> simp [List.filter_cons, h]
    · rw [insertSorted, if_neg hle]
      have hlt : key z < key x := lt_of_not_le hle
      by_cases hz : key z = q
      · have hx : ¬ key x = q := by
          intro hx
          rw [hx] at hlt
          rw [hz] at hlt
          exact absurd hlt (lt_irrefl q)
        simp only [List.filter_cons, hz, ih, hx]
        simp
      · simp only [List.filter_cons, ih]
        simp [hz]

/-- Stability of the time sort: for every key value `q`, the
`q`-keyed elements of the sorted list are exactly the `q`-keyed
elements of the input, in their original (insertion) order. -/
theorem stableSortBy_filter {α : Type} (key : α → ℚ) (l : List α) (q : ℚ) :
    (stableSortBy key l).filter (fun a => decide (key a = q)) =
      l.filter (fun a => decide (key a = q)) := by
  induction l with
  | nil => rfl
  | cons x xs ih =>
    rw [stableSortBy, filter_insertSorted, ih, List.filter_cons]
    by_cases h : key x = q <;> simp [h]

/-- C7 (amended): the simulator's event queue is ordered by TIME ONLY —
`events.sort((a, b) => a.time - b.time)`, a stable sort — so events
sharing a timestamp are processed FIFO by insertion order REGARDLESS of
their class: the sorted queue is non-decreasing in time, and at every
timestamp it preserves the original insertion order of all events of
that timestamp (whatever their types). -/
theorem c7_time_sort_stable_fifo (l : List Part007.SimulationEvent) :
    (stableSortBy (fun e => e.time) l).Pairwise (fun a b => a.time ≤ b.time) ∧
    (∀ q : ℚ, (stableSortBy (fun e => e.time) l).filter
        (fun e => decide (e.time = q)) =
      l.filter (fun e => decide (e.time = q))) :=
  ⟨stableSortBy_pairwise _ l, fun q => stableSortBy_filter _ l q⟩

/-- C7 (counterexample): in `exSupplyModel` the initial event list holds
a `supply-start` at time 0 (inserted first) and an `arrival` at time 0
(inserted later, during the recursion into the child); the claimed
class order `supply-end < arrival < deadline < supply-start <
completion` would process the arrival first, but the simulator's
time-only stable sort puts the supply-start first, and the first loop
step consumes it (the flag flips to `true` while the ready queue is
still empty and no random id has been drawn). -/
theorem c7_counterexample :
    (stableSortBy (fun (e : Part007.SimulationEvent) => e.time)
        (Part007.initState exSupplyModel 4 [7]).events).head? =
      some ⟨0, .resourceSupplyStart, "", "c1"⟩ ∧
    (⟨0, .arrival, "t1", "c1"⟩ : Part007.SimulationEvent) ∈
      (Part007.initState exSupplyModel 4 [7]).events ∧
    mapGet "c1" (Part007.runLoop exSupplyModel 4 1
        (Part007.initState exSupplyModel 4 [7])).resourceAvailableByComponent =
      some true ∧
    (Part007.runLoop exSupplyModel 4 1
        (Part007.initState exSupplyModel 4 [7])).readyQueue = [] ∧
    (Part007.runLoop exSupplyModel 4 1
        (Part007.initState exSupplyModel 4 [7])).rands = [7] := by
  refine ⟨by decide, by decide, by decide, by decide, by decide⟩

/-!
Machinery for C6: identifiers of the strict descendants of a component,
and the invariants of the interface-synthesis walk needed to isolate
the records emitted for root components.
-/

/-- Identifiers of the strict descendants of a component, to the given
depth (aligned with the fuel of `analyzeComponent`). -/
def descIds : Nat → Component → List String
  | 0, _ => []
  | fuel + 1, c =>
    match c.childComponents with
    | none => []
    | some cs => cs.flatMap (fun ch => ch.id :: descIds fuel ch)

/-- `withInterface` keeps the identifier. -/
theorem withInterface_id (c : Component) (a d : Option ℚ) :
    (c.withInterface a d).id = c.id := by
  cases c
  rfl

/-- `withInterface` writes the interface fields. -/
theorem withInterface_alpha_delta (c : Component) (a d : Option ℚ) :
    (c.withInterface a d).alpha = a ∧ (c.withInterface a d).delta = d := by
  cases c
  exact ⟨rfl, rfl⟩

/-- `withInterface` keeps the child list, hence the descendant ids. -/
theorem descIds_withInterface (f : Nat) (c : Component) (a d : Option ℚ) :
    descIds f (c.withInterface a d) = descIds f c := by
  cases f <;> cases c <;> rfl

/-- `analyzeComponent` keeps the component's identifier. -/
theorem analyzeComponent_id (fuel : Nat) (c : Component) (p : ℚ) :
    (Part007.analyzeComponent fuel c p).2.2.id = c.id := by
  cases fuel with
  | zero => rfl
  | succ f =>
    cases c with
    | mk i n alg a d ts cso => cases cso <;> rfl

/-- `analyzeComponent` keeps the component's own interface fields. -/
theorem analyzeComponent_alpha_delta (fuel : Nat) (c : Component) (p : ℚ) :
    (Part007.analyzeComponent fuel c p).2.2.alpha = c.alpha ∧
    (Part007.analyzeComponent fuel c p).2.2.delta = c.delta := by
  cases fuel with
  | zero => exact ⟨rfl, rfl⟩
  | succ f =>
    cases c with
    | mk i n alg a d ts cso => cases cso <;> exact ⟨rfl, rfl⟩

/-- Children list produced by the child-loop fold: the input children
in order, each analyzed with its assigned interface. -/
theorem analyzeFold_children (g : Component → ℚ → Bool × List Part007.InterfaceRecord × Component)
    (p : ℚ) (cs : List Component) :
    ∀ acc, (cs.foldl (Part007.analyzeChildStep g p) acc).2.2 =
      acc.2.2 ++ cs.map (fun child => (g (Part007.childAssigned child p) p).2.2) := by
  induction cs with
  | nil => intro acc; simp
  | cons child rest ih =>
    intro acc
    rw [List.foldl_cons, ih]
    simp [Part007.analyzeChildStep]

/-- Records produced by the child-loop fold: each comes from the
accumulator, is the Half-Half record of one child (carrying its id), or
is emitted by the recursive analysis of one child. -/
theorem analyzeFold_recs_mem (g : Component → ℚ → Bool × List Part007.InterfaceRecord × Component)
    (p : ℚ) (cs : List Component) :
    ∀ acc r, r ∈ (cs.foldl (Part007.analyzeChildStep g p) acc).2.1 →
      r ∈ acc.2.1 ∨ ∃ child ∈ cs, r.componentId = child.id ∨
        r ∈ (g (Part007.childAssigned child p) p).2.1 := by
  induction cs with
  | nil => intro acc r hr; exact Or.inl hr
  | cons child rest ih =>
    intro acc r hr
    rw [List.foldl_cons] at hr
    rcases ih _ r hr with hacc | ⟨child2, hc2, hc2r⟩
    · simp only [Part007.analyzeChildStep, List.mem_append, List.mem_cons] at hacc
      rcases hacc with h | h | h
      · exact Or.inl h
      · refine Or.inr ⟨child, by simp, Or.inl ?_⟩
        rw [h]
      · exact Or.inr ⟨child, by simp, Or.inr h⟩
    · exact Or.inr ⟨child2, by simp [hc2], hc2r⟩

/-- Two flat maps agree when their functions agree on the list. -/
theorem flatMap_congr_mem {α β : Type} (l : List α) (f g : α → List β)
    (h : ∀ x ∈ l, f x = g x) : l.flatMap f = l.flatMap g := by
  induction l with
  | nil => rfl
  | cons x xs ih =>
    simp only [List.flatMap_cons, h x (by simp)]
    rw [ih (fun y hy => h y (by simp [hy]))]

/-- `childAssigned` keeps the identifier and the descendant ids. -/
theorem childAssigned_id (child : Component) (p : ℚ) :
    (Part007.childAssigned child p).id = child.id :=
  withInterface_id _ _ _

/-- Descendant ids are untouched by the interface assignment. -/
theorem childAssigned_descIds (f : Nat) (child : Component) (p : ℚ) :
    descIds f (Part007.childAssigned child p) = descIds f child :=
  descIds_withInterface _ _ _ _

/-- Every record emitted by `analyzeComponent` is either the
component's own record — which carries no supply parameters — or
carries the id of a strict descendant. -/
theorem analyzeComponent_records (fuel : Nat) :
    ∀ (c : Component) (p : ℚ) (r : Part007.InterfaceRecord),
    r ∈ (Part007.analyzeComponent fuel c p).2.1 →
    (r.componentId = c.id ∧ r.supplyBudget = none ∧ r.supplyPeriod = none) ∨
    r.componentId ∈ descIds fuel c := by
  induction fuel with
  | zero =>
    intro c p r hr
    exact absurd hr (by simp [Part007.analyzeComponent])
  | succ f ih =>
    intro c p r hr
    cases c with
    | mk i n alg a d ts cso =>
      cases cso with
      | none =>
        simp only [Part007.analyzeComponent] at hr
        left
        cases a with
        | none => exact absurd hr (by simp)
        | some av =>
          cases d with
          | none => exact absurd hr (by simp)
          | some dv =>
            simp only [List.mem_singleton] at hr
            rw [hr]
            exact ⟨rfl, rfl, rfl⟩
      | some cs =>
        have hdesc1 : ∀ child ∈ cs, child.id ∈
            descIds (f + 1) (Component.mk i n alg a d ts (some cs)) := by
          intro child hchild
          simp only [descIds, Component.childComponents, List.mem_flatMap]
          exact ⟨child, hchild, by simp⟩
        have hdesc2 : ∀ child ∈ cs, ∀ x ∈ descIds f child,
            x ∈ descIds (f + 1) (Component.mk i n alg a d ts (some cs)) := by
          intro child hchild x hx
          simp only [descIds, Component.childComponents, List.mem_flatMap]
          exact ⟨child, hchild, by simp [hx]⟩
        have hkids : ∀ r2, r2 ∈ ((cs.foldl
            (Part007.analyzeChildStep (Part007.analyzeComponent f) p)
            (true, [], [])).2.1 : List Part007.InterfaceRecord) →
            r2.componentId ∈ descIds (f + 1) (Component.mk i n alg a d ts (some cs)) := by
          intro r2 hr2
          rcases analyzeFold_recs_mem _ p cs _ r2 hr2 with hacc | ⟨child, hchild, hcase⟩
          · exact absurd hacc (by simp)
          · rcases hcase with hid | hrec
            · rw [hid]
              exact hdesc1 child hchild
            · rcases ih _ p r2 hrec with ⟨hid, _, _⟩ | hdesc
              · rw [hid, childAssigned_id]
                exact hdesc1 child hchild
              · rw [childAssigned_descIds] at hdesc
                exact hdesc2 child hchild _ hdesc
        simp only [Part007.analyzeComponent] at hr
        cases a with
        | none =>
          exact Or.inr (hkids r hr)
        | some av =>
          cases d with
          | none =>
            exact Or.inr (hkids r hr)
          | some dv =>
            rcases List.mem_append.mp hr with hr | hr
            · exact Or.inr (hkids r hr)
            · simp only [List.mem_singleton] at hr
              rw [hr]
              exact Or.inl ⟨rfl, rfl, rfl⟩

/-- `analyzeComponent` preserves the descendant ids at every depth. -/
theorem analyzeComponent_descIds (f : Nat) :
    ∀ (fuel : Nat) (c : Component) (p : ℚ),
    descIds f (Part007.analyzeComponent fuel c p).2.2 = descIds f c := by
  induction f with
  | zero => intro fuel c p; rfl
  | succ f2 ih =>
    intro fuel c p
    cases fuel with
    | zero => rfl
    | succ fu =>
      cases c with
      | mk i n alg a d ts cso =>
        cases cso with
        | none =>
          cases a <;> cases d <;> rfl
        | some cs =>
          have hout : (Part007.analyzeComponent (fu + 1)
              (Component.mk i n alg a d ts (some cs)) p).2.2 =
              Component.mk i n alg a d ts (some ((cs.foldl
                (Part007.analyzeChildStep (Part007.analyzeComponent fu) p)
                (true, [], [])).2.2)) := by
            cases a <;> cases d <;> rfl
          rw [hout]
          rw [analyzeFold_children]
          simp only [descIds, Component.childComponents, List.nil_append]
          rw [List.flatMap_map]
          refine flatMap_congr_mem cs _ _ (fun child hchild => ?_)
          have h1 : (Part007.analyzeComponent fu (Part007.childAssigned child p) p).2.2.id
              = child.id := by
            rw [analyzeComponent_id, childAssigned_id]
          have h2 : descIds f2 (Part007.analyzeComponent fu
              (Part007.childAssigned child p) p).2.2 = descIds f2 child := by
            rw [ih fu _ p, childAssigned_descIds]
          rw [h1, h2]

/-- A component with an assigned interface emits its own record, with
no supply parameters, whenever the walk has fuel. -/
theorem analyzeComponent_self_record (fuel : Nat) (c : Component) (p : ℚ)
    (av dv : ℚ) (ha : c.alpha = some av) (hd : c.delta = some dv)
    (hf : 0 < fuel) :
    (⟨c.id, av, dv, none, none⟩ : Part007.InterfaceRecord) ∈
      (Part007.analyzeComponent fuel c p).2.1 := by
  cases fuel with
  | zero => exact absurd hf (by simp)
  | succ f =>
    cases c with
    | mk i n alg a d ts cso =>
      have ha2 : a = some av := ha
      have hd2 : d = some dv := hd
      subst ha2 hd2
      cases cso with
      | none => simp [Part007.analyzeComponent, Component.id]
      | some cs => simp [Part007.analyzeComponent, Component.id]

/-- Each root in the output of `processRoots` is either an unmatched
input root, unchanged, or the analysis of a matched input root with the
`(1, 0)` interface written on. -/
theorem processRoots_roots_mem (fuel : Nat) (pf : ℚ) (pre : String) :
    ∀ (roots : List Component) (r2 : Component),
    r2 ∈ (Part007.processRoots fuel pf pre roots).2.2 →
    (∃ r ∈ roots, strStartsWith r.id pre = false ∧ r2 = r) ∨
    (∃ r ∈ roots, strStartsWith r.id pre = true ∧
      r2 = (Part007.analyzeComponent fuel (r.withInterface (some 1) (some 0)) pf).2.2) := by
  intro roots
  induction roots with
  | nil => intro r2 hr2; exact absurd hr2 (by simp [Part007.processRoots])
  | cons r rs ih =>
    intro r2 hr2
    by_cases h : strStartsWith r.id pre = true
    · rw [Part007.processRoots, if_pos h] at hr2
      rcases List.mem_cons.mp hr2 with hr2 | hr2
      · exact Or.inr ⟨r, by simp, h, hr2⟩
      · rcases ih r2 hr2 with ⟨r3, h3, h4, h5⟩ | ⟨r3, h3, h4, h5⟩
        · exact Or.inl ⟨r3, by simp [h3], h4, h5⟩
        · exact Or.inr ⟨r3, by simp [h3], h4, h5⟩
    · rw [Part007.processRoots, if_neg h] at hr2
      rcases List.mem_cons.mp hr2 with hr2 | hr2
      · exact Or.inl ⟨r, by simp, by simpa using h, hr2⟩
      · rcases ih r2 hr2 with ⟨r3, h3, h4, h5⟩ | ⟨r3, h3, h4, h5⟩
        · exact Or.inl ⟨r3, by simp [h3], h4, h5⟩
        · exact Or.inr ⟨r3, by simp [h3], h4, h5⟩

/-- Each record emitted by `processRoots` comes from the analysis of
one matched root with the `(1, 0)` interface written on. -/
theorem processRoots_recs_mem (fuel : Nat) (pf : ℚ) (pre : String) :
    ∀ (roots : List Component) (r : Part007.InterfaceRecord),
    r ∈ (Part007.processRoots fuel pf pre roots).2.1 →
    ∃ root ∈ roots, strStartsWith root.id pre = true ∧
      r ∈ (Part007.analyzeComponent fuel (root.withInterface (some 1) (some 0)) pf).2.1 := by
  intro roots
  induction roots with
  | nil => intro r hr; exact absurd hr (by simp [Part007.processRoots])
  | cons r0 rs ih =>
    intro r hr
    by_cases h : strStartsWith r0.id pre = true
    · rw [Part007.processRoots, if_pos h] at hr
      rcases List.mem_append.mp hr with hr | hr
      · exact ⟨r0, by simp, h, hr⟩
      · rcases ih r hr with ⟨root, h1, h2, h3⟩
        exact ⟨root, by simp [h1], h2, h3⟩
    · rw [Part007.processRoots, if_neg h] at hr
      rcases ih r hr with ⟨root, h1, h2, h3⟩
      exact ⟨root, by simp [h1], h2, h3⟩

/-- Conversely, the records of every matched root's analysis are
contained in the output of `processRoots`. -/
theorem processRoots_recs_super (fuel : Nat) (pf : ℚ) (pre : String) :
    ∀ (roots : List Component) (root : Component), root ∈ roots →
    strStartsWith root.id pre = true →
    ∀ r ∈ (Part007.analyzeComponent fuel (root.withInterface (some 1) (some 0)) pf).2.1,
    r ∈ (Part007.processRoots fuel pf pre roots).2.1 := by
  intro roots
  induction roots with
  | nil => intro root h; exact absurd h (by simp)
  | cons r0 rs ih =>
    intro root hroot hmatch r hr
    rcases List.mem_cons.mp hroot with h0 | h0
    · subst h0
      rw [Part007.processRoots, if_pos hmatch]
      exact List.mem_append.mpr (Or.inl hr)
    · by_cases h : strStartsWith r0.id pre = true
      · rw [Part007.processRoots, if_pos h]
        exact List.mem_append.mpr (Or.inr (ih root h0 hmatch r hr))
      · rw [Part007.processRoots, if_neg h]
        exact ih root h0 hmatch r hr

/-- `processRoots` keeps the list of root identifiers. -/
theorem processRoots_ids (fuel : Nat) (pf : ℚ) (pre : String) :
    ∀ roots : List Component,
    (Part007.processRoots fuel pf pre roots).2.2.map Component.id =
      roots.map Component.id := by
  intro roots
  induction roots with
  | nil => rfl
  | cons r rs ih =>
    by_cases h : strStartsWith r.id pre = true
    · rw [Part007.processRoots, if_pos h]
      simp only [List.map_cons, ih, analyzeComponent_id, withInterface_id]
    · rw [Part007.processRoots, if_neg h]
      simp only [List.map_cons, ih]

/-- Every current root corresponds (by id and descendant ids) to an
original root. -/
def RootsShadow (orig cur : List Component) : Prop :=
  ∀ c ∈ cur, ∃ o ∈ orig, c.id = o.id ∧ ∀ f, descIds f c = descIds f o

/-- The shadow relation is preserved by one core's root processing. -/
theorem processRoots_shadow (fuel : Nat) (pf : ℚ) (pre : String)
    (orig cur : List Component) (h : RootsShadow orig cur) :
    RootsShadow orig (Part007.processRoots fuel pf pre cur).2.2 := by
  intro c hc
  rcases processRoots_roots_mem fuel pf pre cur c hc with
    ⟨r, hr, _, heq⟩ | ⟨r, hr, _, heq⟩
  · rw [heq]
    exact h r hr
  · rcases h r hr with ⟨o, ho, hid, hdesc⟩
    refine ⟨o, ho, ?_, fun f => ?_⟩
    · rw [heq, analyzeComponent_id, withInterface_id, hid]
    · rw [heq, analyzeComponent_descIds, descIds_withInterface, hdesc]

/-- The shadow relation is preserved by the whole core loop. -/
theorem analyzeCores_shadow (fuel : Nat) (orig : List Component) :
    ∀ (cores : List Core) (cur : List Component), RootsShadow orig cur →
    RootsShadow orig (Part007.analyzeCores fuel cur cores).2.2 := by
  intro cores
  induction cores with
  | nil => intro cur h; exact h
  | cons core rest ih =>
    intro cur h
    exact ih _ (processRoots_shadow fuel core.performanceFactor _ orig cur h)

/-- Every record emitted by the core loop traces back to an original
root: it is either that root's own record (without supply parameters)
or carries the id of one of its strict descendants. -/
theorem analyzeCores_recs_origin (fuel : Nat) (orig : List Component) :
    ∀ (cores : List Core) (cur : List Component), RootsShadow orig cur →
    ∀ r ∈ (Part007.analyzeCores fuel cur cores).2.1,
    ∃ o ∈ orig,
      (r.componentId = o.id ∧ r.supplyBudget = none ∧ r.supplyPeriod = none) ∨
      r.componentId ∈ descIds fuel o := by
  intro cores
  induction cores with
  | nil => intro cur _ r hr; exact absurd hr (by simp [Part007.analyzeCores])
  | cons core rest ih =>
    intro cur hshadow r hr
    rw [Part007.analyzeCores] at hr
    rcases List.mem_append.mp hr with hr | hr
    · rcases processRoots_recs_mem fuel core.performanceFactor _ cur r hr with
        ⟨root, hroot, _, hrec⟩
      rcases hshadow root hroot with ⟨o, ho, hid, hdesc⟩
      rcases analyzeComponent_records fuel _ core.performanceFactor r hrec with
        ⟨h1, h2, h3⟩ | h1
      · rw [withInterface_id, hid] at h1
        exact ⟨o, ho, Or.inl ⟨h1, h2, h3⟩⟩
      · rw [descIds_withInterface, hdesc fuel] at h1
        exact ⟨o, ho, Or.inr h1⟩
    · exact ih _ (processRoots_shadow fuel core.performanceFactor _ orig cur hshadow) r hr

/-- Roots matching an already-processed core carry the `(1, 0)`
interface. -/
def RootsDone (done : List Core) (cur : List Component) : Prop :=
  ∀ c ∈ cur, (∃ core ∈ done, strStartsWith c.id ("core-" ++ core.id) = true) →
    c.alpha = some 1 ∧ c.delta = some 0

/-- One core's root processing extends the done-set invariant. -/
theorem processRoots_done (fuel : Nat) (pf : ℚ) (core : Core)
    (done : List Core) (cur : List Component) (h : RootsDone done cur) :
    RootsDone (done ++ [core])
      (Part007.processRoots fuel pf ("core-" ++ core.id) cur).2.2 := by
  intro c hc hex
  rcases processRoots_roots_mem fuel pf _ cur c hc with
    ⟨r, hr, hfalse, heq⟩ | ⟨r, hr, _, heq⟩
  · rw [heq] at hex ⊢
    rcases hex with ⟨core2, hcore2, hmatch⟩
    rcases List.mem_append.mp hcore2 with h2 | h2
    · exact h r hr ⟨core2, h2, hmatch⟩
    · simp only [List.mem_singleton] at h2
      subst h2
      rw [hmatch] at hfalse
      exact absurd hfalse (by simp)
  · rw [heq]
    have hpair := analyzeComponent_alpha_delta fuel (r.withInterface (some 1) (some 0)) pf
    have hw := withInterface_alpha_delta r (some 1) (some 0)
    exact ⟨by rw [hpair.1, hw.1], by rw [hpair.2, hw.2]⟩

/-- The whole core loop establishes the done-set invariant for every
processed core. -/
theorem analyzeCores_done (fuel : Nat) :
    ∀ (cores : List Core) (cur : List Component) (done : List Core),
    RootsDone done cur →
    RootsDone (done ++ cores) (Part007.analyzeCores fuel cur cores).2.2 := by
  intro cores
  induction cores with
  | nil => intro cur done h; simpa using h
  | cons core rest ih =>
    intro cur done h
    have h1 := processRoots_done fuel core.performanceFactor core done cur h
    have h2 := ih _ (done ++ [core]) h1
    have heq : (done ++ [core]) ++ rest = done ++ core :: rest := by simp
    rw [heq] at h2
    exact h2

/-- A root id matched by some core receives its `(1, 0, none, none)`
record in the core loop's output. -/
theorem analyzeCores_root_record (fuel : Nat) :
    ∀ (cores : List Core) (cur : List Component) (rid : String), 0 < fuel →
    (∃ core ∈ cores, strStartsWith rid ("core-" ++ core.id) = true) →
    rid ∈ cur.map Component.id →
    (⟨rid, 1, 0, none, none⟩ : Part007.InterfaceRecord) ∈
      (Part007.analyzeCores fuel cur cores).2.1 := by
  intro cores
  induction cores with
  | nil =>
    intro cur rid _ hex _
    rcases hex with ⟨core, hcore, _⟩
    exact absurd hcore (by simp)
  | cons core rest ih =>
    intro cur rid hf hex hid
    rw [Part007.analyzeCores]
    by_cases hm : strStartsWith rid ("core-" ++ core.id) = true
    · rcases List.mem_map.mp hid with ⟨c, hc, hcid⟩
      have hw := withInterface_alpha_delta c (some 1) (some 0)
      have hself := analyzeComponent_self_record fuel
        (c.withInterface (some 1) (some 0)) core.performanceFactor 1 0 hw.1 hw.2 hf
      rw [withInterface_id, hcid] at hself
      have hcm : strStartsWith c.id ("core-" ++ core.id) = true := by
        rw [hcid]
        exact hm
      exact List.mem_append.mpr (Or.inl
        (processRoots_recs_super fuel core.performanceFactor _ cur c hc hcm _ hself))
    · rcases hex with ⟨core2, hcore2, hmatch⟩
      rcases List.mem_cons.mp hcore2 with h2 | h2
      · subst h2
        exact absurd hmatch hm
      · refine List.mem_append.mpr (Or.inr (ih _ rid hf ⟨core2, h2, hmatch⟩ ?_))
        rw [processRoots_ids]
        exact hid

/-- C6: after interface synthesis on a model whose roots are each bound
to some declared core (by the `core-<coreId>` id prefix) and whose root
ids never reappear among any root's strict descendants, every root
component of the returned (mutated) model carries the interface
`(α = 1, Δ = 0)`; the analysis emits for each root its interface record
`(α = 1, Δ = 0)` WITHOUT supply budget or supply period; and no emitted
record bearing a root's id carries any supply parameter. -/
theorem c6_root_interface (m : SystemModel)
    (hbound : ∀ r ∈ m.rootComponents, ∃ core ∈ m.cores,
      strStartsWith r.id ("core-" ++ core.id) = true)
    (hdisj : ∀ r ∈ m.rootComponents, ∀ r2 ∈ m.rootComponents,
      r.id ∉ descIds treeFuel r2) :
    (∀ c ∈ (Part007.analyzeSystem m).rootComponents,
      c.alpha = some 1 ∧ c.delta = some 0) ∧
    (∀ r0 ∈ m.rootComponents,
      (⟨r0.id, 1, 0, none, none⟩ : Part007.InterfaceRecord) ∈
        (Part007.analyzeSystem m).componentInterfaces ∧
      ∀ r2 ∈ (Part007.analyzeSystem m).componentInterfaces,
        r2.componentId = r0.id →
        r2.supplyBudget = none ∧ r2.supplyPeriod = none) := by
  have hshadow0 : RootsShadow m.rootComponents m.rootComponents :=
    fun c hc => ⟨c, hc, rfl, fun f => rfl⟩
  constructor
  · intro c hc
    have hdone := analyzeCores_done treeFuel m.cores m.rootComponents []
      (fun c2 _ hex => by rcases hex with ⟨core, hcore, _⟩; exact absurd hcore (by simp))
    have hsh := analyzeCores_shadow treeFuel m.rootComponents m.cores
      m.rootComponents hshadow0 c hc
    rcases hsh with ⟨o, ho, hid, _⟩
    rcases hbound o ho with ⟨core, hcore, hmatch⟩
    refine hdone c hc ⟨core, by simpa using hcore, ?_⟩
    rw [hid]
    exact hmatch
  · intro r0 hr0
    constructor
    · refine analyzeCores_root_record treeFuel m.cores m.rootComponents r0.id
        (by norm_num [treeFuel]) (hbound r0 hr0) ?_
      exact List.mem_map.mpr ⟨r0, hr0, rfl⟩
    · intro r2 hr2 hid
      rcases analyzeCores_recs_origin treeFuel m.rootComponents m.cores
        m.rootComponents hshadow0 r2 hr2 with ⟨o, ho, hcase⟩
      rcases hcase with ⟨_, h2, h3⟩ | hdesc
      · exact ⟨h2, h3⟩
      · rw [hid] at hdesc
        exact absurd hdesc (hdisj r0 hr0 o ho)

/-- Witness model for C6: one core, one bound root with one child. -/
def exTreeModel : SystemModel :=
  { cores := [⟨"1", "Core 1", 1⟩],
    rootComponents := [.mk "core-1-root" "Root" .EDF none none
      [⟨"rt", "RT", 1, 10, none, some 10, none⟩]
      (some [.mk "cc" "CC" .EDF none none
        [⟨"ct", "CT", 1, 20, none, some 20, none⟩] none])] }

/-- C6 (witness): the theorem applied to `exTreeModel`. -/
theorem c6_witness :
    ((∀ r ∈ exTreeModel.rootComponents, ∃ core ∈ exTreeModel.cores,
      strStartsWith r.id ("core-" ++ core.id) = true) ∧
     (∀ r ∈ exTreeModel.rootComponents, ∀ r2 ∈ exTreeModel.rootComponents,
      r.id ∉ descIds treeFuel r2)) ∧
    ((∀ c ∈ (Part007.analyzeSystem exTreeModel).rootComponents,
      c.alpha = some 1 ∧ c.delta = some 0) ∧
    (∀ r0 ∈ exTreeModel.rootComponents,
      (⟨r0.id, 1, 0, none, none⟩ : Part007.InterfaceRecord) ∈
        (Part007.analyzeSystem exTreeModel).componentInterfaces ∧
      ∀ r2 ∈ (Part007.analyzeSystem exTreeModel).componentInterfaces,
        r2.componentId = r0.id →
        r2.supplyBudget = none ∧ r2.supplyPeriod = none)) :=
  ⟨⟨by decide, by decide⟩, c6_root_interface exTreeModel (by decide) (by decide)⟩

end CoreSched
